import Mathlib

/-!
Shallow embedding of the `nvme-exporter` crate for specification checking.

Conventions of the embedding:
* Rust byte buffers (`&[u8]`, `Vec<u8>`) are `List Nat`; each element stands
  for one byte (theorems that depend on byte-ness carry `< 256` bounds).
* Rust `String` values flowing through the collector are Lean `String`s;
  the byte-level text produced by `String::from_utf8_lossy` is modelled as a
  `List Nat` of Unicode scalar values.
* Machine integers are `Nat` with explicit `% 2 ^ w` or range checks where
  the source converts or wraps.
* Fallible Rust functions returning `Result<_, NvmeError>` become
  `Except NvmeError _`.
* I/O (ioctl submission, sysfs reads, clocks) is made explicit: outcomes
  of device calls are oracle inputs, `Instant` is a `Nat` timestamp.
-/

set_option maxRecDepth 8000

namespace NvmeExporter

/-- `NvmeError` from `src/nvme/error.rs`.  The `std::io::Error` payloads of
`Io`/`Ioctl` are not modelled (they come from the OS); only the context
strings are kept. -/
inductive NvmeError where
  | io (context : String)
  | ioctl (device : String)
  | permissionDenied (device : String)
  | unexpectedSize (expected actual : Nat)
  | invalidData (message : String)
  | parse (message : String)
  | noReadableDevices
  | internal (message : String)
deriving DecidableEq, Repr

/- Constants from `src/nvme/types.rs`. -/

def SMART_LOG_BYTES : Nat := 512
def IDENTIFY_BYTES : Nat := 4096
def SELF_TEST_LOG_BYTES : Nat := 564
def ERROR_LOG_ENTRY_BYTES : Nat := 64
def ERROR_LOG_ENTRIES : Nat := 16
def ERROR_LOG_BYTES : Nat := ERROR_LOG_ENTRY_BYTES * ERROR_LOG_ENTRIES

/-- Little-endian value of a byte list, the semantics of
`uN::from_le_bytes` (`read_uN_le` always passes it a list of the right
length). -/
def leVal : List Nat → Nat
  | [] => 0
  | b :: rest => b + 256 * leVal rest

/-- `read_u8` from `src/nvme/types.rs`: `bytes.get(offset)` with a `Parse`
error when out of bounds. -/
def read_u8 (bytes : List Nat) (offset : Nat) : Except NvmeError Nat :=
  if offset < bytes.length then
    .ok (bytes.getD offset 0)
  else
    .error (.parse ("requested byte " ++ toString offset ++
      " from buffer of length " ++ toString bytes.length))

/-- `slice::<N>` from `src/nvme/types.rs`: `bytes.get(offset..offset+n)`
(`saturating_add` cannot overflow in the `Nat` model). -/
def sliceN (bytes : List Nat) (offset n : Nat) : Except NvmeError (List Nat) :=
  if offset + n ≤ bytes.length then
    .ok ((bytes.drop offset).take n)
  else
    .error (.parse ("requested range " ++ toString offset ++ ".." ++
      toString (offset + n) ++ " from buffer of length " ++ toString bytes.length))

/-- `read_u16_le` from `src/nvme/types.rs`. -/
def read_u16_le (bytes : List Nat) (offset : Nat) : Except NvmeError Nat := do
  let src ← sliceN bytes offset 2
  return leVal src

/-- `read_u32_le` from `src/nvme/types.rs`. -/
def read_u32_le (bytes : List Nat) (offset : Nat) : Except NvmeError Nat := do
  let src ← sliceN bytes offset 4
  return leVal src

/-- `read_u64_le` from `src/nvme/types.rs`. -/
def read_u64_le (bytes : List Nat) (offset : Nat) : Except NvmeError Nat := do
  let src ← sliceN bytes offset 8
  return leVal src

/-- `read_u128_le` from `src/nvme/types.rs`. -/
def read_u128_le (bytes : List Nat) (offset : Nat) : Except NvmeError Nat := do
  let src ← sliceN bytes offset 16
  return leVal src

/-- `SmartLog` from `src/nvme/types.rs` (all integer fields as `Nat`). -/
structure SmartLog where
  critical_warning : Nat
  temperature_kelvin : Nat
  avail_spare : Nat
  spare_thresh : Nat
  percent_used : Nat
  data_units_read : Nat
  data_units_written : Nat
  host_read_commands : Nat
  host_write_commands : Nat
  ctrl_busy_time_minutes : Nat
  power_cycles : Nat
  power_on_hours : Nat
  unsafe_shutdowns : Nat
  media_errors : Nat
  num_err_log_entries : Nat
  warning_temp_time_minutes : Nat
  critical_comp_time_minutes : Nat
  temp_sensor_kelvin : List Nat
  thm_temp1_trans_count : Nat
  thm_temp2_trans_count : Nat
  thm_temp1_total_time_seconds : Nat
  thm_temp2_total_time_seconds : Nat
deriving DecidableEq, Repr

/-- `SmartLog::parse` from `src/nvme/types.rs`.  The sensor-filling `while`
loop has the constant trip count 8 and is unrolled into its eight reads. -/
def SmartLog.parse (bytes : List Nat) : Except NvmeError SmartLog :=
  if bytes.length ≠ SMART_LOG_BYTES then
    .error (.unexpectedSize SMART_LOG_BYTES bytes.length)
  else do
    let s0 ← read_u16_le bytes 200
    let s1 ← read_u16_le bytes 202
    let s2 ← read_u16_le bytes 204
    let s3 ← read_u16_le bytes 206
    let s4 ← read_u16_le bytes 208
    let s5 ← read_u16_le bytes 210
    let s6 ← read_u16_le bytes 212
    let s7 ← read_u16_le bytes 214
    let critical_warning ← read_u8 bytes 0
    let temperature_kelvin ← read_u16_le bytes 1
    let avail_spare ← read_u8 bytes 3
    let spare_thresh ← read_u8 bytes 4
    let percent_used ← read_u8 bytes 5
    let data_units_read ← read_u128_le bytes 32
    let data_units_written ← read_u128_le bytes 48
    let host_read_commands ← read_u128_le bytes 64
    let host_write_commands ← read_u128_le bytes 80
    let ctrl_busy_time_minutes ← read_u128_le bytes 96
    let power_cycles ← read_u128_le bytes 112
    let power_on_hours ← read_u128_le bytes 128
    let unsafe_shutdowns ← read_u128_le bytes 144
    let media_errors ← read_u128_le bytes 160
    let num_err_log_entries ← read_u128_le bytes 176
    let warning_temp_time_minutes ← read_u32_le bytes 192
    let critical_comp_time_minutes ← read_u32_le bytes 196
    let thm_temp1_trans_count ← read_u32_le bytes 216
    let thm_temp2_trans_count ← read_u32_le bytes 220
    let thm_temp1_total_time_seconds ← read_u32_le bytes 224
    let thm_temp2_total_time_seconds ← read_u32_le bytes 228
    return {
      critical_warning, temperature_kelvin, avail_spare, spare_thresh,
      percent_used, data_units_read, data_units_written, host_read_commands,
      host_write_commands, ctrl_busy_time_minutes, power_cycles,
      power_on_hours, unsafe_shutdowns, media_errors, num_err_log_entries,
      warning_temp_time_minutes, critical_comp_time_minutes,
      temp_sensor_kelvin := [s0, s1, s2, s3, s4, s5, s6, s7],
      thm_temp1_trans_count, thm_temp2_trans_count,
      thm_temp1_total_time_seconds, thm_temp2_total_time_seconds }

/-- `ErrorLogSummary` from `src/nvme/types.rs`. -/
structure ErrorLogSummary where
  non_zero_entries : Nat
  max_error_count : Nat
deriving DecidableEq, Repr

/-- The `while offset < bytes.len()` loop inside `ErrorLogSummary::parse`,
carrying the two accumulators. -/
def errorLogLoop (bytes : List Nat) (offset nz mx : Nat) :
    Except NvmeError (Nat × Nat) :=
  if h : offset < bytes.length then do
    let error_count ← read_u64_le bytes offset
    errorLogLoop bytes (offset + ERROR_LOG_ENTRY_BYTES)
      (if error_count > 0 then nz + 1 else nz)
      (if error_count > mx then error_count else mx)
  else
    .ok (nz, mx)
termination_by bytes.length - offset
decreasing_by simp only [ERROR_LOG_ENTRY_BYTES]; omega

/-- `ErrorLogSummary::parse` from `src/nvme/types.rs`:
`bytes.len().is_multiple_of(64)` guard, then the tally loop. -/
def ErrorLogSummary.parse (bytes : List Nat) : Except NvmeError ErrorLogSummary :=
  if bytes.length % ERROR_LOG_ENTRY_BYTES ≠ 0 then
    .error (.invalidData ("error log buffer size " ++ toString bytes.length ++
      " is not divisible by " ++ toString ERROR_LOG_ENTRY_BYTES))
  else do
    let (nz, mx) ← errorLogLoop bytes 0 0 0
    return { non_zero_entries := nz, max_error_count := mx }

/-! ### Discovery (`src/nvme/discovery.rs`)

Names read from the filesystem are modelled as `List Char` (Rust `&str`
is always valid UTF-8, so char-level modelling is exact). -/

/-- The decimal value of a digit string. -/
def digitsVal (digits : List Char) : Nat :=
  digits.foldl (fun acc c => acc * 10 + (c.toNat - '0'.toNat)) 0

/-- `digits.parse::<u32>().ok()` on a non-empty all-digit string: its decimal
value when it fits in `u32`, `None` on overflow or an empty string. -/
def parseU32Digits (digits : List Char) : Option Nat :=
  if digits.isEmpty then none
  else if digitsVal digits < 2 ^ 32 then some (digitsVal digits) else none

/-- `parse_namespace_name` from `src/nvme/discovery.rs`. -/
def parse_namespace_name (controller_name namespace_name : List Char) :
    Option Nat :=
  let pref := controller_name ++ ['n']
  if pref.isPrefixOf namespace_name then
    let suffix := namespace_name.drop pref.length
    if suffix.isEmpty then none
    else
      let digits := suffix.takeWhile (fun ch => ch.isDigit)
      if digits.isEmpty then none
      else parseU32Digits digits
  else none

/-- `discover_namespaces` from `src/nvme/discovery.rs`, with the directory
listing supplied as the oracle input `entries` (an unreadable directory is
the empty listing).  Entries whose name does not parse are skipped. -/
def discover_namespaces (controller_name : List Char)
    (entries : List (List Char)) : List (List Char × Nat) :=
  entries.filterMap fun namespace_name =>
    (parse_namespace_name controller_name namespace_name).map
      fun nsid => (namespace_name, nsid)

/-! ### ioctl command building (`src/nvme/ioctl.rs`)

`get_log_page` validates the length, builds an `NvmePassthruCmd` and
submits it via `ioctl`; the submission is I/O, so the embedding returns the
command that would be submitted.  The `addr` field holds a raw pointer and
is kept at 0 (memory addresses are outside the model). -/

def OPCODE_GET_LOG_PAGE : Nat := 0x02
def NSID_ALL : Nat := 0xFFFFFFFF

/-- `NvmePassthruCmd` from `src/nvme/ioctl.rs` (all fields as `Nat`). -/
structure NvmePassthruCmd where
  opcode : Nat
  flags : Nat
  rsvd1 : Nat
  nsid : Nat
  cdw2 : Nat
  cdw3 : Nat
  metadata : Nat
  addr : Nat
  metadata_len : Nat
  data_len : Nat
  cdw10 : Nat
  cdw11 : Nat
  cdw12 : Nat
  cdw13 : Nat
  cdw14 : Nat
  cdw15 : Nat
  timeout_ms : Nat
  result : Nat
deriving DecidableEq, Repr

/-- `NvmePassthruCmd::empty`. -/
def NvmePassthruCmd.empty : NvmePassthruCmd :=
  { opcode := 0, flags := 0, rsvd1 := 0, nsid := 0, cdw2 := 0, cdw3 := 0,
    metadata := 0, addr := 0, metadata_len := 0, data_len := 0, cdw10 := 0,
    cdw11 := 0, cdw12 := 0, cdw13 := 0, cdw14 := 0, cdw15 := 0,
    timeout_ms := 0, result := 0 }

/-- `get_log_page` from `src/nvme/ioctl.rs`, up to the point where the
command is submitted: length validation, `NUMD` computation
(`saturating_sub` is plain `Nat` subtraction), the two `u32::try_from`
checks, and the command assembly.  `numd_words << 16` is a `u32` shift, so
the result is reduced `% 2 ^ 32`. -/
def get_log_page (nsid : Nat) (lid : Nat) (data_len : Nat) (timeout_ms : Nat) :
    Except NvmeError NvmePassthruCmd :=
  if data_len = 0 ∨ data_len % 4 ≠ 0 then
    .error (.invalidData ("log page length " ++ toString data_len ++
      " must be non-zero and divisible by 4"))
  else
    let numd_words := data_len / 4 - 1
    if numd_words < 2 ^ 32 then
      if data_len < 2 ^ 32 then
        .ok { NvmePassthruCmd.empty with
          opcode := OPCODE_GET_LOG_PAGE,
          nsid := nsid,
          data_len := data_len,
          cdw10 := ((numd_words <<< 16) % 2 ^ 32) ||| lid,
          timeout_ms := timeout_ms }
      else .error (.invalidData "log page length is too large")
    else .error (.invalidData "log page length is too large")

/-- `get_controller_log_page` from `src/nvme/ioctl.rs`. -/
def get_controller_log_page (lid : Nat) (data_len : Nat) (timeout_ms : Nat) :
    Except NvmeError NvmePassthruCmd :=
  get_log_page NSID_ALL lid data_len timeout_ms

/-! ### Text handling (`trim_nvme_ascii` in `src/nvme/types.rs`)

`String::from_utf8_lossy` decodes UTF-8, replacing each maximal prefix of
a valid byte sequence that cannot be completed by U+FFFD.  The decoded
text is a list of Unicode scalar values (`Nat`); `String::as_bytes` is the
UTF-8 encoding back. -/

/-- A Unicode scalar value (what a Rust `char` may hold). -/
def ValidScalar (c : Nat) : Prop := c < 0x110000 ∧ ¬(0xD800 ≤ c ∧ c < 0xE000)

instance (c : Nat) : Decidable (ValidScalar c) := by
  unfold ValidScalar; infer_instance

/-- Lower bound of the second byte of a 3-byte sequence (avoids overlong
forms after `0xE0`). -/
def utf8Lo3 (b0 : Nat) : Nat := if b0 = 0xE0 then 0xA0 else 0x80

/-- Upper bound (exclusive) of the second byte of a 3-byte sequence
(avoids surrogates after `0xED`). -/
def utf8Hi3 (b0 : Nat) : Nat := if b0 = 0xED then 0xA0 else 0xC0

/-- Lower bound of the second byte of a 4-byte sequence (avoids overlong
forms after `0xF0`). -/
def utf8Lo4 (b0 : Nat) : Nat := if b0 = 0xF0 then 0x90 else 0x80

/-- Upper bound (exclusive) of the second byte of a 4-byte sequence
(keeps code points below `0x110000` after `0xF4`). -/
def utf8Hi4 (b0 : Nat) : Nat := if b0 = 0xF4 then 0x90 else 0xC0

/-- `String::from_utf8_lossy`: UTF-8 decoding with U+FFFD substitution of
maximal subparts.  On an invalid or truncated sequence the bytes making up
the longest valid prefix are consumed and replaced by `0xFFFD`; scanning
resumes at the first offending byte. -/
def utf8LossyDecode : List Nat → List Nat
  | [] => []
  | b0 :: rest =>
    if b0 < 0x80 then
      b0 :: utf8LossyDecode rest
    else if b0 < 0xC2 then
      0xFFFD :: utf8LossyDecode rest
    else if b0 < 0xE0 then
      match rest with
      | [] => [0xFFFD]
      | b1 :: rest2 =>
        if 0x80 ≤ b1 ∧ b1 < 0xC0 then
          ((b0 - 0xC0) * 0x40 + (b1 - 0x80)) :: utf8LossyDecode rest2
        else
          0xFFFD :: utf8LossyDecode (b1 :: rest2)
    else if b0 < 0xF0 then
      match rest with
      | [] => [0xFFFD]
      | b1 :: rest2 =>
        if utf8Lo3 b0 ≤ b1 ∧ b1 < utf8Hi3 b0 then
          match rest2 with
          | [] => [0xFFFD]
          | b2 :: rest3 =>
            if 0x80 ≤ b2 ∧ b2 < 0xC0 then
              ((b0 - 0xE0) * 0x1000 + (b1 - 0x80) * 0x40 + (b2 - 0x80)) ::
                utf8LossyDecode rest3
            else
              0xFFFD :: utf8LossyDecode (b2 :: rest3)
        else
          0xFFFD :: utf8LossyDecode (b1 :: rest2)
    else if b0 < 0xF5 then
      match rest with
      | [] => [0xFFFD]
      | b1 :: rest2 =>
        if utf8Lo4 b0 ≤ b1 ∧ b1 < utf8Hi4 b0 then
          match rest2 with
          | [] => [0xFFFD]
          | b2 :: rest3 =>
            if 0x80 ≤ b2 ∧ b2 < 0xC0 then
              match rest3 with
              | [] => [0xFFFD]
              | b3 :: rest4 =>
                if 0x80 ≤ b3 ∧ b3 < 0xC0 then
                  ((b0 - 0xF0) * 0x40000 + (b1 - 0x80) * 0x1000 +
                    (b2 - 0x80) * 0x40 + (b3 - 0x80)) :: utf8LossyDecode rest4
                else
                  0xFFFD :: utf8LossyDecode (b3 :: rest4)
            else
              0xFFFD :: utf8LossyDecode (b2 :: rest3)
        else
          0xFFFD :: utf8LossyDecode (b1 :: rest2)
    else
      0xFFFD :: utf8LossyDecode rest

/-- UTF-8 encoding of one scalar value (`char::encode_utf8`). -/
def utf8EncodeChar (c : Nat) : List Nat :=
  if c < 0x80 then [c]
  else if c < 0x800 then [0xC0 + c / 0x40, 0x80 + c % 0x40]
  else if c < 0x10000 then
    [0xE0 + c / 0x1000, 0x80 + c / 0x40 % 0x40, 0x80 + c % 0x40]
  else
    [0xF0 + c / 0x40000, 0x80 + c / 0x1000 % 0x40, 0x80 + c / 0x40 % 0x40,
      0x80 + c % 0x40]

/-- `String::as_bytes`: UTF-8 encoding of a scalar list. -/
def utf8Encode : List Nat → List Nat
  | [] => []
  | c :: cs => utf8EncodeChar c ++ utf8Encode cs

/-- `char::is_whitespace`: the Unicode `White_Space` property. -/
def rustIsWhitespace (c : Nat) : Bool :=
  decide (c = 0x09 ∨ c = 0x0A ∨ c = 0x0B ∨ c = 0x0C ∨ c = 0x0D ∨ c = 0x20 ∨
    c = 0x85 ∨ c = 0xA0 ∨ c = 0x1680 ∨ (0x2000 ≤ c ∧ c ≤ 0x200A) ∨
    c = 0x2028 ∨ c = 0x2029 ∨ c = 0x202F ∨ c = 0x205F ∨ c = 0x3000)

/-- The `while value.ends_with('\0') { value.pop(); }` loop of
`trim_nvme_ascii`. -/
def dropTrailingNuls (l : List Nat) : List Nat :=
  (l.reverse.dropWhile (fun c => c == 0)).reverse

/-- `str::trim`: strip `White_Space` characters from both ends. -/
def trimWhitespace (l : List Nat) : List Nat :=
  ((l.dropWhile rustIsWhitespace).reverse.dropWhile rustIsWhitespace).reverse

/-- `trim_nvme_ascii` from `src/nvme/types.rs`: lossy-decode, pop trailing
NULs, trim whitespace. -/
def trim_nvme_ascii (bytes : List Nat) : List Nat :=
  trimWhitespace (dropTrailingNuls (utf8LossyDecode bytes))

/-- Scalar values of a Lean string literal (used to write expected outputs
of `trim_nvme_ascii` readably). -/
def strScalars (s : String) : List Nat := s.toList.map Char.toNat

/-! ### Collector (`src/collector.rs`)

Device I/O is made explicit: every device call that reaches the kernel is
an oracle outcome carried by a `DeviceCalls` record.  `Instant` is a `Nat`
timestamp and `Duration` a `Nat` in the same unit;
`saturating_duration_since` is `Nat` subtraction.  `HashMap` becomes an
association list whose insert replaces an existing key in place; map
iteration order is irrelevant to the embedded results (the only consumer
sorts).  The wall-clock `duration_seconds` field of `ScrapeReport` and the
`f64` ratio fields are outside the model (the self-test ratio is kept as
its raw percent numerator). -/

/-- `IdentifyController` from `src/nvme/types.rs` as it reaches the
collector: three decoded label strings. -/
structure IdentifyController where
  serial : String
  model : String
  firmware_revision : String
deriving DecidableEq, Repr

/-- `IdentifyNamespace` from `src/nvme/types.rs`. -/
structure IdentifyNamespace where
  nsze : Nat
  ncap : Nat
  nuse : Nat
deriving DecidableEq, Repr

/-- `SelfTestLogSummary` from `src/nvme/types.rs`; the `f64` completion
ratio is represented by its percent numerator `current_completion`. -/
structure SelfTestLogSummary where
  current_operation : Nat
  current_completion : Nat
deriving DecidableEq, Repr

/-- `NvmeNamespace` from `src/nvme/discovery.rs` (collector side). -/
structure NvmeNamespace where
  name : String
  nsid : Nat
deriving DecidableEq, Repr

/-- `NvmeController` from `src/nvme/discovery.rs` (collector side; the
device path is determined by the name and not repeated). -/
structure NvmeController where
  name : String
  model : Option String
  serial : Option String
  firmware : Option String
  namespaces : List NvmeNamespace
deriving DecidableEq, Repr

/-- `NamespaceSnapshot` from `src/metrics.rs`; `ns_name` stands for the
source field `namespace`, which is a reserved word here. -/
structure NamespaceSnapshot where
  ns_name : String
  nsze : Nat
  ncap : Nat
  nuse : Nat
deriving DecidableEq, Repr

/-- `ErrorLogSnapshot` from `src/metrics.rs`. -/
structure ErrorLogSnapshot where
  non_zero_entries : Nat
  max_error_count : Nat
deriving DecidableEq, Repr

/-- `SelfTestSnapshot` from `src/metrics.rs` (ratio kept as numerator). -/
structure SelfTestSnapshot where
  current_operation : Nat
  current_completion : Nat
deriving DecidableEq, Repr

/-- `DeviceSnapshot` from `src/metrics.rs`. -/
structure DeviceSnapshot where
  device : String
  model : String
  serial : String
  firmware : String
  accessible : Bool
  smart : Option SmartLog
  namespaces : List NamespaceSnapshot
  error_log : Option ErrorLogSnapshot
  self_test : Option SelfTestSnapshot
deriving DecidableEq, Repr

/-- `ScrapeReport` from `src/metrics.rs` (without the wall-clock
`duration_seconds`). -/
structure ScrapeReport where
  success : Bool
  discovered_device_count : Nat
  devices : List DeviceSnapshot
  collect_namespace : Bool
  collect_error_log : Bool
  collect_self_test : Bool
deriving DecidableEq, Repr

/-- The collector-relevant part of `Config` from `src/config.rs`.
`Config::parse` always sets `ioctl_timeout` to 5000 ms; the field is kept
generic here. -/
structure Config where
  collect_namespace : Bool
  collect_error_log : Bool
  collect_self_test : Bool
  stale_device_grace : Nat
  ioctl_timeout_ms : Nat
deriving DecidableEq, Repr

/-- Oracle: outcomes of the device calls `collect_controller` can make for
one controller (`NvmeDevice::open` and the five admin commands of
`src/nvme/device.rs`). -/
structure DeviceCalls where
  open_result : Except NvmeError Unit
  identify_controller : Except NvmeError IdentifyController
  smart_log : Except NvmeError SmartLog
  identify_namespace : Nat → Except NvmeError IdentifyNamespace
  error_log : Except NvmeError ErrorLogSummary
  self_test_log : Except NvmeError SelfTestLogSummary

/-- `CachedDevice` from `src/collector.rs`. -/
structure CachedDevice where
  snapshot : DeviceSnapshot
  last_seen : Nat
deriving DecidableEq, Repr

/-- The `devices` map of `CollectorState` (the discovery cache is handled
by taking the discovered controller list as an input). -/
structure CollectorState where
  devices : List (String × CachedDevice)
deriving DecidableEq, Repr

/-- `HashMap::insert`: replace the value of an existing key, otherwise add
the binding. -/
def insertA {α : Type} (l : List (String × α)) (k : String) (v : α) :
    List (String × α) :=
  match l with
  | [] => [(k, v)]
  | (k', v') :: rest =>
    if k' = k then (k, v) :: rest else (k', v') :: insertA rest k v

/-- `HashMap::get`: first value bound to the key. -/
def lookupA {α : Type} (l : List (String × α)) (k : String) : Option α :=
  match l with
  | [] => none
  | (k', v') :: rest => if k' = k then some v' else lookupA rest k

/-- `u32::try_from(config.ioctl_timeout.as_millis())` as it appears in
`collect_controller` and `validate_startup_devices`. -/
def timeoutU32 (config : Config) : Except NvmeError Nat :=
  if config.ioctl_timeout_ms < 2 ^ 32 then .ok config.ioctl_timeout_ms
  else .error (.parse "ioctl timeout exceeds u32")

/-- `NvmeCollector::collect_controller` from `src/collector.rs`, with the
device call outcomes supplied by the `io` oracle. -/
def collect_controller (config : Config) (io_oracle : DeviceCalls)
    (controller : NvmeController) : Except NvmeError DeviceSnapshot := do
  let _ ← io_oracle.open_result
  let _timeout ← timeoutU32 config
  let identify : Option IdentifyController :=
    match io_oracle.identify_controller with
    | .ok value => some value
    | .error _ => none
  let smart ← io_oracle.smart_log
  let model :=
    ((((identify.map fun value => value.model).orElse
      fun _ => controller.model).filter fun value => value ≠ "").getD "unknown")
  let serial :=
    ((((identify.map fun value => value.serial).orElse
      fun _ => controller.serial).filter fun value => value ≠ "").getD "unknown")
  let firmware :=
    ((((identify.map fun value => value.firmware_revision).orElse
      fun _ => controller.firmware).filter fun value => value ≠ "").getD "unknown")
  let namespaces : List NamespaceSnapshot :=
    if config.collect_namespace then
      controller.namespaces.filterMap fun ns =>
        match io_oracle.identify_namespace ns.nsid with
        | .ok value =>
          some { ns_name := ns.name, nsze := value.nsze, ncap := value.ncap,
                 nuse := value.nuse }
        | .error _ => none
    else []
  let error_log : Option ErrorLogSnapshot :=
    if config.collect_error_log then
      match io_oracle.error_log with
      | .ok value =>
        some { non_zero_entries := value.non_zero_entries,
               max_error_count := value.max_error_count }
      | .error _ => none
    else none
  let self_test : Option SelfTestSnapshot :=
    if config.collect_self_test then
      match io_oracle.self_test_log with
      | .ok value =>
        some { current_operation := value.current_operation,
               current_completion := value.current_completion }
      | .error _ => none
    else none
  return { device := controller.name, model, serial, firmware,
           accessible := true, smart := some smart, namespaces, error_log,
           self_test }

/-- `NvmeCollector::minimal_snapshot` from `src/collector.rs`. -/
def minimal_snapshot (controller : NvmeController) (accessible : Bool) :
    DeviceSnapshot :=
  { device := controller.name,
    model := controller.model.getD "unknown",
    serial := controller.serial.getD "unknown",
    firmware := controller.firmware.getD "unknown",
    accessible, smart := none, namespaces := [], error_log := none,
    self_test := none }

/-- The comparator of `snapshots.sort_by(|left, right| left.device.cmp(&right.device))`. -/
def devLE (left right : DeviceSnapshot) : Prop := left.device ≤ right.device

instance : DecidableRel devLE := fun a b =>
  inferInstanceAs (Decidable (a.device ≤ b.device))

instance : IsTotal DeviceSnapshot devLE := ⟨fun a b => le_total a.device b.device⟩

instance : IsTrans DeviceSnapshot devLE := ⟨fun _ _ _ h1 h2 => le_trans h1 h2⟩

/-- `NvmeCollector::merge_device_state` from `src/collector.rs`: write the
collected snapshots into the cache, mark undiscovered entries
inaccessible, evict entries outside the grace window, and return the
sorted snapshot list together with the new cache. -/
def merge_device_state (config : Config) (now : Nat)
    (discovered_names : List String)
    (collected_devices : List (String × DeviceSnapshot))
    (devices : List (String × CachedDevice)) :
    List DeviceSnapshot × List (String × CachedDevice) :=
  let devices1 := collected_devices.foldl
    (fun acc nv => insertA acc nv.1 { snapshot := nv.2, last_seen := now })
    devices
  let devices2 := devices1.map fun kv =>
    if discovered_names.contains kv.1 then kv
    else (kv.1, { kv.2 with snapshot := { kv.2.snapshot with accessible := false } })
  let devices3 := devices2.filter fun kv =>
    discovered_names.contains kv.1 ||
      decide (now - kv.2.last_seen ≤ config.stale_device_grace)
  let snapshots := (devices3.map fun kv => kv.2.snapshot).insertionSort devLE
  (snapshots, devices3)

/-- The per-controller body of the scrape loop: on success insert the
snapshot, on failure clear the success flag and insert the fallback
(previous snapshot demoted to `accessible=false`, else a minimal one). -/
def scrapeStep (config : Config) (io_for : NvmeController → DeviceCalls)
    (previous_devices : List (String × CachedDevice))
    (acc : List (String × DeviceSnapshot) × Bool) (controller : NvmeController) :
    List (String × DeviceSnapshot) × Bool :=
  match collect_controller config (io_for controller) controller with
  | .ok snapshot => (insertA acc.1 controller.name snapshot, acc.2)
  | .error _ =>
    let fallback :=
      match lookupA previous_devices controller.name with
      | some cached => { cached.snapshot with accessible := false }
      | none => minimal_snapshot controller false
    (insertA acc.1 controller.name fallback, false)

/-- `NvmeCollector::scrape` from `src/collector.rs`, with the discovered
controllers (`load_controllers`) and the device call outcomes as inputs.
Returns the report handed to `encode_report` together with the updated
collector state. -/
def scrape (config : Config) (io_for : NvmeController → DeviceCalls) (now : Nat)
    (controllers : List NvmeController) (state : CollectorState) :
    ScrapeReport × CollectorState :=
  let previous_devices := state.devices
  let discovered_names := controllers.map fun controller => controller.name
  let collected := controllers.foldl
    (scrapeStep config io_for previous_devices) ([], true)
  let merged := merge_device_state config now discovered_names collected.1
    previous_devices
  ({ success := collected.2,
     discovered_device_count := controllers.length,
     devices := merged.1,
     collect_namespace := config.collect_namespace,
     collect_error_log := config.collect_error_log,
     collect_self_test := config.collect_self_test },
   { devices := merged.2 })

/-! ### Specification-side definitions

These definitions phrase the spec's claims; the theorems below compare
them with the embedded source functions. -/

/-- Success of an embedded `Result`. -/
def isOkB {α : Type} : Except NvmeError α → Bool
  | .ok _ => true
  | .error _ => false

/-- Spec, field resolution: "the first non-empty value in the order:
Identify field, then the discovery attribute, then the literal string
`"unknown"`". -/
def firstNonEmptyLabel (identify_field discovery_attr : Option String) :
    String :=
  match identify_field with
  | some v =>
    if v ≠ "" then v
    else
      match discovery_attr with
      | some a => if a ≠ "" then a else "unknown"
      | none => "unknown"
  | none =>
    match discovery_attr with
    | some a => if a ≠ "" then a else "unknown"
    | none => "unknown"

/-- The resolution the code actually performs: the Identify field when
Identify Controller succeeded (empty or not — an empty field falls through
to `"unknown"`, not to the attribute); the discovery attribute only when
Identify Controller failed. -/
def resolvedLabel (identify_field discovery_attr : Option String) : String :=
  match identify_field with
  | some v => if v ≠ "" then v else "unknown"
  | none =>
    match discovery_attr with
    | some a => if a ≠ "" then a else "unknown"
    | none => "unknown"

/-- The Identify Controller outcome as the collector caches it. -/
def identifyOpt (io_oracle : DeviceCalls) : Option IdentifyController :=
  match io_oracle.identify_controller with
  | .ok value => some value
  | .error _ => none

/-- Spec, error log: the little-endian u64 "error count" of each 64-byte
entry (`bytes[i*64..i*64+8]`). -/
def errorLogEntryCounts (bytes : List Nat) : List Nat :=
  (List.range (bytes.length / ERROR_LOG_ENTRY_BYTES)).map fun i =>
    leVal ((bytes.drop (ERROR_LOG_ENTRY_BYTES * i)).take 8)

/-- Spec, SMART log: the fields read little-endian at the documented
offsets of a 512-byte buffer. -/
def smartLogSpec (bytes : List Nat) : SmartLog :=
  { critical_warning := leVal ((bytes.drop 0).take 1),
    temperature_kelvin := leVal ((bytes.drop 1).take 2),
    avail_spare := leVal ((bytes.drop 3).take 1),
    spare_thresh := leVal ((bytes.drop 4).take 1),
    percent_used := leVal ((bytes.drop 5).take 1),
    data_units_read := leVal ((bytes.drop 32).take 16),
    data_units_written := leVal ((bytes.drop 48).take 16),
    host_read_commands := leVal ((bytes.drop 64).take 16),
    host_write_commands := leVal ((bytes.drop 80).take 16),
    ctrl_busy_time_minutes := leVal ((bytes.drop 96).take 16),
    power_cycles := leVal ((bytes.drop 112).take 16),
    power_on_hours := leVal ((bytes.drop 128).take 16),
    unsafe_shutdowns := leVal ((bytes.drop 144).take 16),
    media_errors := leVal ((bytes.drop 160).take 16),
    num_err_log_entries := leVal ((bytes.drop 176).take 16),
    warning_temp_time_minutes := leVal ((bytes.drop 192).take 4),
    critical_comp_time_minutes := leVal ((bytes.drop 196).take 4),
    temp_sensor_kelvin := (List.range 8).map fun i =>
      leVal ((bytes.drop (200 + i * 2)).take 2),
    thm_temp1_trans_count := leVal ((bytes.drop 216).take 4),
    thm_temp2_trans_count := leVal ((bytes.drop 220).take 4),
    thm_temp1_total_time_seconds := leVal ((bytes.drop 224).take 4),
    thm_temp2_total_time_seconds := leVal ((bytes.drop 228).take 4) }

/-- Little-endian byte encoding (`uN::to_le_bytes`), `n` bytes wide. -/
def leBytes : Nat → Nat → List Nat
  | 0, _ => []
  | n + 1, v => v % 256 :: leBytes n (v / 256)

/-- Two little-endian bytes for each sensor value. -/
def sensorBytes : List Nat → List Nat
  | [] => []
  | t :: ts => leBytes 2 t ++ sensorBytes ts

/-- Spec, SMART log roundtrip: a 512-byte buffer constructed by writing
each field's little-endian bytes at its documented offset (reserved
ranges zero). -/
def mkSmartBuffer (s : SmartLog) : List Nat :=
  leBytes 1 s.critical_warning ++
  leBytes 2 s.temperature_kelvin ++
  leBytes 1 s.avail_spare ++
  leBytes 1 s.spare_thresh ++
  leBytes 1 s.percent_used ++
  List.replicate 26 0 ++
  leBytes 16 s.data_units_read ++
  leBytes 16 s.data_units_written ++
  leBytes 16 s.host_read_commands ++
  leBytes 16 s.host_write_commands ++
  leBytes 16 s.ctrl_busy_time_minutes ++
  leBytes 16 s.power_cycles ++
  leBytes 16 s.power_on_hours ++
  leBytes 16 s.unsafe_shutdowns ++
  leBytes 16 s.media_errors ++
  leBytes 16 s.num_err_log_entries ++
  leBytes 4 s.warning_temp_time_minutes ++
  leBytes 4 s.critical_comp_time_minutes ++
  sensorBytes s.temp_sensor_kelvin ++
  leBytes 4 s.thm_temp1_trans_count ++
  leBytes 4 s.thm_temp2_trans_count ++
  leBytes 4 s.thm_temp1_total_time_seconds ++
  leBytes 4 s.thm_temp2_total_time_seconds ++
  List.replicate 280 0

/-- Well-formedness of a `SmartLog` value: every field fits its machine
width (`u8`/`u16`/`u32`/`u128`) and there are eight sensor values. -/
def SmartLogWf (s : SmartLog) : Prop :=
  s.critical_warning < 2 ^ 8 ∧ s.temperature_kelvin < 2 ^ 16 ∧
  s.avail_spare < 2 ^ 8 ∧ s.spare_thresh < 2 ^ 8 ∧ s.percent_used < 2 ^ 8 ∧
  s.data_units_read < 2 ^ 128 ∧ s.data_units_written < 2 ^ 128 ∧
  s.host_read_commands < 2 ^ 128 ∧ s.host_write_commands < 2 ^ 128 ∧
  s.ctrl_busy_time_minutes < 2 ^ 128 ∧ s.power_cycles < 2 ^ 128 ∧
  s.power_on_hours < 2 ^ 128 ∧ s.unsafe_shutdowns < 2 ^ 128 ∧
  s.media_errors < 2 ^ 128 ∧ s.num_err_log_entries < 2 ^ 128 ∧
  s.warning_temp_time_minutes < 2 ^ 32 ∧
  s.critical_comp_time_minutes < 2 ^ 32 ∧
  s.temp_sensor_kelvin.length = 8 ∧
  (∀ t ∈ s.temp_sensor_kelvin, t < 2 ^ 16) ∧
  s.thm_temp1_trans_count < 2 ^ 32 ∧ s.thm_temp2_trans_count < 2 ^ 32 ∧
  s.thm_temp1_total_time_seconds < 2 ^ 32 ∧
  s.thm_temp2_total_time_seconds < 2 ^ 32

instance (s : SmartLog) : Decidable (SmartLogWf s) := by
  unfold SmartLogWf; infer_instance

/-- The cache invariant the collector maintains: keys are unique and every
cached snapshot carries its own key as `device`. -/
def DevicesWf (devices : List (String × CachedDevice)) : Prop :=
  (devices.map Prod.fst).Nodup ∧ ∀ kv ∈ devices, kv.2.snapshot.device = kv.1

/-- Collector states reachable from startup (`NvmeCollector::new` starts
with an empty device map; each scrape replaces the map). -/
inductive Reachable : CollectorState → Prop where
  | init : Reachable ⟨[]⟩
  | step (config : Config) (io_for : NvmeController → DeviceCalls) (now : Nat)
      (controllers : List NvmeController) (state : CollectorState) :
      Reachable state →
      Reachable (scrape config io_for now controllers state).2

/-- A concrete well-formed `SmartLog` used to witness the roundtrip. -/
def smartWitnessValue : SmartLog :=
  { critical_warning := 1, temperature_kelvin := 310, avail_spare := 99,
    spare_thresh := 10, percent_used := 7, data_units_read := 11,
    data_units_written := 12, host_read_commands := 13,
    host_write_commands := 14, ctrl_busy_time_minutes := 15,
    power_cycles := 16, power_on_hours := 17, unsafe_shutdowns := 18,
    media_errors := 19, num_err_log_entries := 20,
    warning_temp_time_minutes := 21, critical_comp_time_minutes := 22,
    temp_sensor_kelvin := [300, 301, 302, 303, 304, 305, 306, 307],
    thm_temp1_trans_count := 23, thm_temp2_trans_count := 24,
    thm_temp1_total_time_seconds := 25, thm_temp2_total_time_seconds := 26 }

/-- An all-zero `SmartLog` for collector fixtures. -/
def smartZero : SmartLog :=
  { critical_warning := 0, temperature_kelvin := 0, avail_spare := 0,
    spare_thresh := 0, percent_used := 0, data_units_read := 0,
    data_units_written := 0, host_read_commands := 0,
    host_write_commands := 0, ctrl_busy_time_minutes := 0,
    power_cycles := 0, power_on_hours := 0, unsafe_shutdowns := 0,
    media_errors := 0, num_err_log_entries := 0,
    warning_temp_time_minutes := 0, critical_comp_time_minutes := 0,
    temp_sensor_kelvin := [0, 0, 0, 0, 0, 0, 0, 0],
    thm_temp1_trans_count := 0, thm_temp2_trans_count := 0,
    thm_temp1_total_time_seconds := 0, thm_temp2_total_time_seconds := 0 }

/-- Device-call fixture: every call succeeds. -/
def okCalls : DeviceCalls :=
  { open_result := .ok (), identify_controller := .ok ⟨"S1", "M1", "F1"⟩,
    smart_log := .ok smartZero,
    identify_namespace := fun _ => .ok ⟨1, 1, 1⟩,
    error_log := .ok ⟨0, 0⟩, self_test_log := .ok ⟨0, 0⟩ }

/-- Device-call fixture: Identify Controller succeeds with empty fields,
everything else on the happy path. -/
def emptyIdCalls : DeviceCalls :=
  { open_result := .ok (), identify_controller := .ok ⟨"", "", ""⟩,
    smart_log := .ok smartZero,
    identify_namespace := fun _ => .error (.invalidData "unused"),
    error_log := .error (.invalidData "unused"),
    self_test_log := .error (.invalidData "unused") }

/-- Configuration fixture: optional collectors off, defaults otherwise. -/
def cfgPlain : Config :=
  { collect_namespace := false, collect_error_log := false,
    collect_self_test := false, stale_device_grace := 300,
    ioctl_timeout_ms := 5000 }

/-- Controller fixture with discovery attributes present. -/
def ctlDisc : NvmeController :=
  { name := "nvme0", model := some "DISCMODEL", serial := some "DISCSERIAL",
    firmware := some "DISCFW", namespaces := [] }

/-- Controller fixture without discovery attributes. -/
def ctl0 : NvmeController :=
  { name := "nvme0", model := none, serial := none, firmware := none,
    namespaces := [] }

/-- The snapshot `collect_controller cfgPlain okCalls ctl0` produces. -/
def snapNvme0 : DeviceSnapshot :=
  { device := "nvme0", model := "M1", serial := "S1", firmware := "F1",
    accessible := true, smart := some smartZero, namespaces := [],
    error_log := none, self_test := none }

/-! ## Helper lemmas -/

theorem dropWhile_head_false {α : Type} (p : α → Bool) (l : List α) :
    ∀ r rs, l.dropWhile p = r :: rs → p r = false := by
  induction l with
  | nil => intro r rs h; simp [List.dropWhile] at h
  | cons a l ih =>
    intro r rs h
    cases hp : p a <;> simp [List.dropWhile_cons, hp] at h
    · obtain ⟨h1, h2⟩ := h; subst h1; exact hp
    · exact ih r rs h

theorem takeWhile_append_all {α : Type} (p : α → Bool) (xs ys : List α)
    (h : ∀ x ∈ xs, p x = true) :
    (xs ++ ys).takeWhile p = xs ++ ys.takeWhile p := by
  induction xs with
  | nil => simp
  | cons a xs ih =>
    have ha : p a = true := h a (by simp)
    simp only [List.cons_append, List.takeWhile_cons, ha, if_true]
    rw [ih fun x hx => h x (by simp [hx])]

theorem takeWhile_nil_of_head_false {α : Type} (p : α → Bool) (l : List α)
    (h : ∀ r rs, l = r :: rs → p r = false) : l.takeWhile p = [] := by
  cases l with
  | nil => rfl
  | cons a l => simp [List.takeWhile_cons, h a l rfl]

theorem digitsVal_foldl_acc (ds : List Char) :
    ∀ acc : Nat,
      ds.foldl (fun acc c => acc * 10 + (c.toNat - '0'.toNat)) acc =
        acc * 10 ^ ds.length +
          ds.foldl (fun acc c => acc * 10 + (c.toNat - '0'.toNat)) 0 := by
  induction ds with
  | nil => intro acc; simp
  | cons c ds ih =>
    intro acc
    rw [List.foldl_cons, List.foldl_cons,
      ih (acc * 10 + (c.toNat - '0'.toNat)), ih (0 * 10 + (c.toNat - '0'.toNat))]
    simp [List.length_cons]
    ring

theorem digitsVal_append (xs ys : List Char) :
    digitsVal (xs ++ ys) = digitsVal xs * 10 ^ ys.length + digitsVal ys := by
  unfold digitsVal
  rw [List.foldl_append]
  exact digitsVal_foldl_acc ys _

theorem errorLogEntryCounts_length (bytes : List Nat) (m : Nat)
    (hlen : bytes.length = 64 * m) :
    (errorLogEntryCounts bytes).length = m := by
  simp [errorLogEntryCounts, hlen, ERROR_LOG_ENTRY_BYTES]

theorem errorLogLoop_stop (bytes : List Nat) (offset nz mx : Nat)
    (h : ¬ offset < bytes.length) :
    errorLogLoop bytes offset nz mx = .ok (nz, mx) := by
  unfold errorLogLoop
  rw [dif_neg h]

theorem errorLogLoop_spec (bytes : List Nat) (m : Nat)
    (hlen : bytes.length = 64 * m) :
    ∀ d k nz mx, m ≤ k + d →
      errorLogLoop bytes (64 * k) nz mx =
        .ok (nz + ((errorLogEntryCounts bytes).drop k).countP
              (fun c => decide (0 < c)),
             ((errorLogEntryCounts bytes).drop k).foldl (fun a c => max a c) mx) := by
  intro d
  induction d with
  | zero =>
    intro k nz mx hk
    have hdrop : (errorLogEntryCounts bytes).drop k = [] := by
      apply List.drop_eq_nil_of_le
      rw [errorLogEntryCounts_length bytes m hlen]
      omega
    rw [errorLogLoop_stop bytes _ nz mx (by omega), hdrop]
    simp
  | succ d ih =>
    intro k nz mx hk
    by_cases hkm : m ≤ k
    · have hdrop : (errorLogEntryCounts bytes).drop k = [] := by
        apply List.drop_eq_nil_of_le
        rw [errorLogEntryCounts_length bytes m hlen]
        omega
      rw [errorLogLoop_stop bytes _ nz mx (by omega), hdrop]
      simp
    · have hklt : k < m := by omega
      have hread : read_u64_le bytes (64 * k) =
          .ok (leVal ((bytes.drop (64 * k)).take 8)) := by
        simp only [read_u64_le, sliceN]
        rw [if_pos (by omega)]
        rfl
      have hentry : (errorLogEntryCounts bytes).drop k =
          leVal ((bytes.drop (64 * k)).take 8) ::
            (errorLogEntryCounts bytes).drop (k + 1) := by
        have hklen : k < (errorLogEntryCounts bytes).length := by
          rw [errorLogEntryCounts_length bytes m hlen]; omega
        rw [List.drop_eq_getElem_cons hklen]
        congr 1
        simp [errorLogEntryCounts, ERROR_LOG_ENTRY_BYTES]
      unfold errorLogLoop
      rw [dif_pos (by omega)]
      rw [hread]
      show errorLogLoop bytes (64 * k + ERROR_LOG_ENTRY_BYTES) _ _ = _
      have hoff : 64 * k + ERROR_LOG_ENTRY_BYTES = 64 * (k + 1) := by
        simp [ERROR_LOG_ENTRY_BYTES]; ring
      rw [hoff, ih (k + 1) _ _ (by omega), hentry]
      congr 1
      refine Prod.ext ?_ ?_
      · simp only [List.countP_cons]
        split <;> (rename_i hc; simp at hc; simp [hc]; try omega)
      · simp only [List.foldl_cons]
        congr 1
        split <;> omega

theorem leBytes_length (n v : Nat) : (leBytes n v).length = n := by
  induction n generalizing v with
  | zero => rfl
  | succ n ih => simp [leBytes, ih]

theorem sensorBytes_length (ts : List Nat) :
    (sensorBytes ts).length = 2 * ts.length := by
  induction ts with
  | nil => rfl
  | cons t ts ih => simp [sensorBytes, leBytes_length, ih]; ring

theorem leVal_leBytes (n v : Nat) : leVal (leBytes n v) = v % 256 ^ n := by
  induction n generalizing v with
  | zero => simp [leBytes, leVal, Nat.mod_one]
  | succ n ih =>
    rw [leBytes, leVal, ih (v / 256), pow_succ']
    rw [Nat.mod_mul]

theorem extract_at {pre mid post : List Nat} {o n : Nat}
    (ho : pre.length = o) (hn : mid.length = n) :
    ((pre ++ (mid ++ post)).drop o).take n = mid := by
  subst ho hn
  rw [List.drop_left, List.take_left]

theorem ok_bind {α β : Type} (a : α) (f : α → Except NvmeError β) :
    (Except.ok a >>= f) = f a := rfl

theorem read_u8_ok {bytes : List Nat} {offset : Nat}
    (h : offset + 1 ≤ bytes.length) :
    read_u8 bytes offset = .ok (leVal ((bytes.drop offset).take 1)) := by
  have hlt : offset < bytes.length := by omega
  simp only [read_u8]
  rw [if_pos hlt]
  congr 1
  rw [List.drop_eq_getElem_cons hlt]
  simp [leVal, List.getD_eq_getElem bytes 0 hlt, List.getElem?_eq_getElem hlt]

theorem read_u16_ok {bytes : List Nat} {offset : Nat}
    (h : offset + 2 ≤ bytes.length) :
    read_u16_le bytes offset = .ok (leVal ((bytes.drop offset).take 2)) := by
  simp only [read_u16_le, sliceN]
  rw [if_pos h]
  rfl

theorem read_u32_ok {bytes : List Nat} {offset : Nat}
    (h : offset + 4 ≤ bytes.length) :
    read_u32_le bytes offset = .ok (leVal ((bytes.drop offset).take 4)) := by
  simp only [read_u32_le, sliceN]
  rw [if_pos h]
  rfl

theorem read_u128_ok {bytes : List Nat} {offset : Nat}
    (h : offset + 16 ≤ bytes.length) :
    read_u128_le bytes offset = .ok (leVal ((bytes.drop offset).take 16)) := by
  simp only [read_u128_le, sliceN]
  rw [if_pos h]
  rfl

theorem mkSmartBuffer_length (s : SmartLog)
    (h8 : s.temp_sensor_kelvin.length = 8) :
    (mkSmartBuffer s).length = 512 := by
  simp [mkSmartBuffer, leBytes_length, sensorBytes_length, h8]

theorem smart_parse_ok (bytes : List Nat) (hlen : bytes.length = 512) :
    SmartLog.parse bytes = .ok (smartLogSpec bytes) := by
  simp only [SmartLog.parse, SMART_LOG_BYTES, hlen, ne_eq,
    not_true_eq_false, if_false, reduceIte]
  rw [read_u16_ok (by omega), ok_bind, read_u16_ok (by omega), ok_bind,
    read_u16_ok (by omega), ok_bind, read_u16_ok (by omega), ok_bind,
    read_u16_ok (by omega), ok_bind, read_u16_ok (by omega), ok_bind,
    read_u16_ok (by omega), ok_bind, read_u16_ok (by omega), ok_bind,
    read_u8_ok (by omega), ok_bind, read_u16_ok (by omega), ok_bind,
    read_u8_ok (by omega), ok_bind, read_u8_ok (by omega), ok_bind,
    read_u8_ok (by omega), ok_bind, read_u128_ok (by omega), ok_bind,
    read_u128_ok (by omega), ok_bind, read_u128_ok (by omega), ok_bind,
    read_u128_ok (by omega), ok_bind, read_u128_ok (by omega), ok_bind,
    read_u128_ok (by omega), ok_bind, read_u128_ok (by omega), ok_bind,
    read_u128_ok (by omega), ok_bind, read_u128_ok (by omega), ok_bind,
    read_u128_ok (by omega), ok_bind, read_u32_ok (by omega), ok_bind,
    read_u32_ok (by omega), ok_bind, read_u32_ok (by omega), ok_bind,
    read_u32_ok (by omega), ok_bind, read_u32_ok (by omega), ok_bind,
    read_u32_ok (by omega), ok_bind]
  rfl

theorem extract_peel {a R : List Nat} {o : Nat} (h : a.length ≤ o) :
    (a ++ R).drop o = R.drop (o - a.length) := by
  induction a generalizing o with
  | nil => simp
  | cons x a ih =>
    cases o with
    | zero => simp at h
    | succ o =>
      simp only [List.cons_append, List.drop_succ_cons, List.length_cons,
        Nat.succ_sub_succ]
      exact ih (by simpa using h)

theorem take_exact {a R : List Nat} {n : Nat} (h : a.length = n) :
    (a ++ R).take n = a := by
  subst h
  exact List.take_left _ _

theorem smartLogSpec_mkSmartBuffer (s : SmartLog) (hwf : SmartLogWf s) :
    smartLogSpec (mkSmartBuffer s) = s := by
  obtain ⟨cw, temp, av, th, pu, dur, duw, hrc, hwc, busy, pc, poh, us, me,
    ne, wt, ct, ts, c1, c2, e1, e2⟩ := s
  simp only [SmartLogWf] at hwf
  obtain ⟨h1, h2, h3, h4, h5, h6, h7, h8, h9, h10, h11, h12, h13, h14, h15,
    h16, h17, hlen8, hsens, h18, h19, h20, h21⟩ := hwf
  rcases ts with _ | ⟨t0, ts⟩; · simp at hlen8
  rcases ts with _ | ⟨t1, ts⟩; · simp at hlen8
  rcases ts with _ | ⟨t2, ts⟩; · simp at hlen8
  rcases ts with _ | ⟨t3, ts⟩; · simp at hlen8
  rcases ts with _ | ⟨t4, ts⟩; · simp at hlen8
  rcases ts with _ | ⟨t5, ts⟩; · simp at hlen8
  rcases ts with _ | ⟨t6, ts⟩; · simp at hlen8
  rcases ts with _ | ⟨t7, ts⟩; · simp at hlen8
  have hnil : ts = [] := by simpa using hlen8
  subst hnil
  have ht0 : t0 < 2 ^ 16 := hsens t0 (by simp)
  have ht1 : t1 < 2 ^ 16 := hsens t1 (by simp)
  have ht2 : t2 < 2 ^ 16 := hsens t2 (by simp)
  have ht3 : t3 < 2 ^ 16 := hsens t3 (by simp)
  have ht4 : t4 < 2 ^ 16 := hsens t4 (by simp)
  have ht5 : t5 < 2 ^ 16 := hsens t5 (by simp)
  have ht6 : t6 < 2 ^ 16 := hsens t6 (by simp)
  have ht7 : t7 < 2 ^ 16 := hsens t7 (by simp)
  have hrange : List.range 8 = [0, 1, 2, 3, 4, 5, 6, 7] := rfl
  simp only [smartLogSpec, mkSmartBuffer, hrange, List.map_cons,
    List.map_nil, sensorBytes, List.append_assoc, List.append_nil]
  simp [extract_peel, take_exact, leBytes_length, leVal_leBytes,
    SmartLog.mk.injEq]
  omega

theorem utf8LossyDecode_valid (l : List Nat) :
    ∀ c ∈ utf8LossyDecode l, ValidScalar c := by
  induction l using utf8LossyDecode.induct <;> intro c hc <;>
    rw [utf8LossyDecode.eq_def] at hc <;>
    simp only [*, List.mem_cons, List.mem_singleton, List.not_mem_nil,
      reduceIte, if_true, if_false, and_self, true_and, and_true] at hc <;>
    (try rcases hc with rfl | hc) <;>
    first
      | assumption
      | solve_by_elim
      | (unfold ValidScalar; omega)
      | ((try simp only [utf8Lo3, utf8Hi3, utf8Lo4, utf8Hi4] at *);
          unfold ValidScalar; (try split_ifs at *) <;> omega)

theorem utf8LossyDecode_encodeChar (c : Nat) (h : ValidScalar c)
    (rest : List Nat) :
    utf8LossyDecode (utf8EncodeChar c ++ rest) = c :: utf8LossyDecode rest := by
  obtain ⟨hlt, hsur⟩ := h
  by_cases h1 : c < 0x80
  · simp only [utf8EncodeChar, if_pos h1, List.cons_append, List.nil_append]
    rw [utf8LossyDecode.eq_def]
    simp only [if_pos h1]
  · by_cases h2 : c < 0x800
    · simp only [utf8EncodeChar, if_neg h1, if_pos h2, List.cons_append,
        List.nil_append]
      rw [utf8LossyDecode.eq_def]
      simp only [utf8Lo3, utf8Hi3, utf8Lo4, utf8Hi4]
      rw [if_neg (show ¬(0xC0 + c / 0x40 < 0x80) by omega),
        if_neg (show ¬(0xC0 + c / 0x40 < 0xC2) by omega),
        if_pos (show 0xC0 + c / 0x40 < 0xE0 by omega),
        if_pos (show 0x80 ≤ 0x80 + c % 0x40 ∧ 0x80 + c % 0x40 < 0xC0 by omega)]
      simp only [List.cons.injEq, eq_self_iff_true, and_true]
      omega
    · by_cases h3 : c < 0x10000
      · simp only [utf8EncodeChar, if_neg h1, if_neg h2, if_pos h3,
          List.cons_append, List.nil_append]
        rw [utf8LossyDecode.eq_def]
        simp only [utf8Lo3, utf8Hi3, utf8Lo4, utf8Hi4]
        rw [if_neg (show ¬(0xE0 + c / 0x1000 < 0x80) by omega),
          if_neg (show ¬(0xE0 + c / 0x1000 < 0xC2) by omega),
          if_neg (show ¬(0xE0 + c / 0x1000 < 0xE0) by omega),
          if_pos (show 0xE0 + c / 0x1000 < 0xF0 by omega)]
        rcases Nat.lt_or_ge c 0x1000 with hc0 | hc0
        · rw [if_pos (show 0xE0 + c / 0x1000 = 0xE0 by omega),
            if_neg (show ¬(0xE0 + c / 0x1000 = 0xED) by omega),
            if_pos (show 0xA0 ≤ 0x80 + c / 0x40 % 0x40 ∧
              0x80 + c / 0x40 % 0x40 < 0xC0 by omega),
            if_pos (show 0x80 ≤ 0x80 + c % 0x40 ∧ 0x80 + c % 0x40 < 0xC0 by
              omega)]
          simp only [List.cons.injEq, eq_self_iff_true, and_true]
          omega
        · by_cases hED : 0xD000 ≤ c ∧ c < 0xE000
          · rw [if_neg (show ¬(0xE0 + c / 0x1000 = 0xE0) by omega),
              if_pos (show 0xE0 + c / 0x1000 = 0xED by omega),
              if_pos (show 0x80 ≤ 0x80 + c / 0x40 % 0x40 ∧
                0x80 + c / 0x40 % 0x40 < 0xA0 by omega),
              if_pos (show 0x80 ≤ 0x80 + c % 0x40 ∧ 0x80 + c % 0x40 < 0xC0 by
                omega)]
            simp only [List.cons.injEq, eq_self_iff_true, and_true]
            omega
          · rw [if_neg (show ¬(0xE0 + c / 0x1000 = 0xE0) by omega),
              if_neg (show ¬(0xE0 + c / 0x1000 = 0xED) by omega),
              if_pos (show 0x80 ≤ 0x80 + c / 0x40 % 0x40 ∧
                0x80 + c / 0x40 % 0x40 < 0xC0 by omega),
              if_pos (show 0x80 ≤ 0x80 + c % 0x40 ∧ 0x80 + c % 0x40 < 0xC0 by
                omega)]
            simp only [List.cons.injEq, eq_self_iff_true, and_true]
            omega
      · simp only [utf8EncodeChar, if_neg h1, if_neg h2, if_neg h3,
          List.cons_append, List.nil_append]
        rw [utf8LossyDecode.eq_def]
        simp only [utf8Lo3, utf8Hi3, utf8Lo4, utf8Hi4]
        rw [if_neg (show ¬(0xF0 + c / 0x40000 < 0x80) by omega),
          if_neg (show ¬(0xF0 + c / 0x40000 < 0xC2) by omega),
          if_neg (show ¬(0xF0 + c / 0x40000 < 0xE0) by omega),
          if_neg (show ¬(0xF0 + c / 0x40000 < 0xF0) by omega),
          if_pos (show 0xF0 + c / 0x40000 < 0xF5 by omega)]
        rcases Nat.lt_or_ge c 0x40000 with hc0 | hc0
        · rw [if_pos (show 0xF0 + c / 0x40000 = 0xF0 by omega),
            if_neg (show ¬(0xF0 + c / 0x40000 = 0xF4) by omega),
            if_pos (show 0x90 ≤ 0x80 + c / 0x1000 % 0x40 ∧
              0x80 + c / 0x1000 % 0x40 < 0xC0 by omega),
            if_pos (show 0x80 ≤ 0x80 + c / 0x40 % 0x40 ∧
              0x80 + c / 0x40 % 0x40 < 0xC0 by omega),
            if_pos (show 0x80 ≤ 0x80 + c % 0x40 ∧ 0x80 + c % 0x40 < 0xC0 by
              omega)]
          simp only [List.cons.injEq, eq_self_iff_true, and_true]
          omega
        · rcases Nat.lt_or_ge c 0x100000 with hc1 | hc1
          · rw [if_neg (show ¬(0xF0 + c / 0x40000 = 0xF0) by omega),
              if_neg (show ¬(0xF0 + c / 0x40000 = 0xF4) by omega),
              if_pos (show 0x80 ≤ 0x80 + c / 0x1000 % 0x40 ∧
                0x80 + c / 0x1000 % 0x40 < 0xC0 by omega),
              if_pos (show 0x80 ≤ 0x80 + c / 0x40 % 0x40 ∧
                0x80 + c / 0x40 % 0x40 < 0xC0 by omega),
              if_pos (show 0x80 ≤ 0x80 + c % 0x40 ∧ 0x80 + c % 0x40 < 0xC0 by
                omega)]
            simp only [List.cons.injEq, eq_self_iff_true, and_true]
            omega
          · rw [if_neg (show ¬(0xF0 + c / 0x40000 = 0xF0) by omega),
              if_pos (show 0xF0 + c / 0x40000 = 0xF4 by omega),
              if_pos (show 0x80 ≤ 0x80 + c / 0x1000 % 0x40 ∧
                0x80 + c / 0x1000 % 0x40 < 0x90 by omega),
              if_pos (show 0x80 ≤ 0x80 + c / 0x40 % 0x40 ∧
                0x80 + c / 0x40 % 0x40 < 0xC0 by omega),
              if_pos (show 0x80 ≤ 0x80 + c % 0x40 ∧ 0x80 + c % 0x40 < 0xC0 by
                omega)]
            simp only [List.cons.injEq, eq_self_iff_true, and_true]
            omega

theorem utf8LossyDecode_utf8Encode (l : List Nat)
    (h : ∀ c ∈ l, ValidScalar c) :
    utf8LossyDecode (utf8Encode l) = l := by
  induction l with
  | nil => rfl
  | cons c cs ih =>
    rw [utf8Encode, utf8LossyDecode_encodeChar c (h c (by simp)),
      ih fun d hd => h d (by simp [hd])]

theorem mem_of_dropWhile {α : Type} {p : α → Bool} {l : List α} {c : α}
    (h : c ∈ l.dropWhile p) : c ∈ l :=
  (List.dropWhile_sublist p).subset h

theorem dropWhile_idem {α : Type} (p : α → Bool) (l : List α) :
    (l.dropWhile p).dropWhile p = l.dropWhile p := by
  cases hd : l.dropWhile p with
  | nil => rfl
  | cons r rs =>
    have hr := dropWhile_head_false p l r rs hd
    simp [List.dropWhile_cons, hr]

theorem backTrim_prefix (p : Nat → Bool) (l : List Nat) :
    (l.reverse.dropWhile p).reverse <+: l := by
  have h := List.reverse_prefix.mpr (List.dropWhile_suffix (l := l.reverse) p)
  simpa using h

theorem trimWhitespace_idem (l : List Nat) :
    trimWhitespace (trimWhitespace l) = trimWhitespace l := by
  have hF : (trimWhitespace l).dropWhile rustIsWhitespace = trimWhitespace l := by
    cases hd : trimWhitespace l with
    | nil => rfl
    | cons r rs =>
      have hpre : trimWhitespace l <+: l.dropWhile rustIsWhitespace :=
        backTrim_prefix _ _
      rw [hd] at hpre
      obtain ⟨t, ht⟩ := hpre
      have hr : rustIsWhitespace r = false :=
        dropWhile_head_false _ l r (rs ++ t) (by rw [← ht]; simp)
      simp [List.dropWhile_cons, hr]
  conv_lhs => rw [trimWhitespace]
  rw [hF, trimWhitespace, List.reverse_reverse, dropWhile_idem]

theorem dropTrailingNuls_id (l : List Nat) (h : l.getLast? ≠ some 0) :
    dropTrailingNuls l = l := by
  unfold dropTrailingNuls
  cases hrev : l.reverse with
  | nil =>
    have : l = [] := by simpa using congrArg List.reverse hrev
    simp [this]
  | cons r rs =>
    have hlast : l.getLast? = some r := by
      rw [← List.head?_reverse, hrev]
      rfl
    have hr : (r == 0) = false := by
      rw [hlast] at h
      simpa using h
    simp only [List.dropWhile_cons, hr, Bool.false_eq_true, if_false]
    rw [← hrev, List.reverse_reverse]

theorem mem_trim_nvme_ascii {bytes : List Nat} {c : Nat}
    (hc : c ∈ trim_nvme_ascii bytes) : c ∈ utf8LossyDecode bytes := by
  unfold trim_nvme_ascii trimWhitespace dropTrailingNuls at hc
  have h1 := mem_of_dropWhile (List.mem_reverse.mp hc)
  have h2 := mem_of_dropWhile (List.mem_reverse.mp h1)
  have h3 := mem_of_dropWhile (List.mem_reverse.mp h2)
  exact List.mem_reverse.mp h3

theorem except_error_bind {α β : Type} (e : NvmeError)
    (f : α → Except NvmeError β) : (Except.error e >>= f) = Except.error e :=
  rfl

theorem mem_insertA_elim {α : Type} {l : List (String × α)} {k : String}
    {v : α} {kv : String × α} (h : kv ∈ insertA l k v) :
    kv = (k, v) ∨ kv ∈ l := by
  induction l with
  | nil => simpa [insertA] using h
  | cons hd rest ih =>
    obtain ⟨k', v'⟩ := hd
    by_cases hk : k' = k
    · simp only [insertA, if_pos hk, List.mem_cons] at h
      rcases h with h | h
      · exact Or.inl h
      · exact Or.inr (List.mem_cons_of_mem _ h)
    · simp only [insertA, if_neg hk, List.mem_cons] at h
      rcases h with h | h
      · exact Or.inr (h ▸ List.mem_cons_self _ _)
      · rcases ih h with h' | h'
        · exact Or.inl h'
        · exact Or.inr (List.mem_cons_of_mem _ h')

theorem mem_insertA_of_ne {α : Type} {l : List (String × α)} {k : String}
    {v : α} {kv : String × α} (h : kv ∈ l) (hne : kv.1 ≠ k) :
    kv ∈ insertA l k v := by
  induction l with
  | nil => simp at h
  | cons hd rest ih =>
    obtain ⟨k', v'⟩ := hd
    by_cases hk : k' = k
    · simp only [insertA, if_pos hk, List.mem_cons]
      rcases List.mem_cons.mp h with h' | h'
      · exact absurd (by rw [h']; exact hk) hne
      · exact Or.inr h'
    · simp only [insertA, if_neg hk, List.mem_cons]
      rcases List.mem_cons.mp h with h' | h'
      · exact Or.inl h'
      · exact Or.inr (ih h')

theorem keys_insertA_elim {α : Type} {l : List (String × α)} {k : String}
    {v : α} {x : String} (h : x ∈ (insertA l k v).map Prod.fst) :
    x ∈ l.map Prod.fst ∨ x = k := by
  obtain ⟨kv, hkv, rfl⟩ := List.mem_map.mp h
  rcases mem_insertA_elim hkv with h' | h'
  · exact Or.inr (by rw [h'])
  · exact Or.inl (List.mem_map.mpr ⟨kv, h', rfl⟩)

theorem nodup_keys_insertA {α : Type} {l : List (String × α)} {k : String}
    {v : α} (h : (l.map Prod.fst).Nodup) :
    ((insertA l k v).map Prod.fst).Nodup := by
  induction l with
  | nil => simp [insertA]
  | cons hd rest ih =>
    obtain ⟨k', v'⟩ := hd
    simp only [List.map_cons, List.nodup_cons] at h
    by_cases hk : k' = k
    · simp only [insertA, if_pos hk, List.map_cons, List.nodup_cons]
      exact ⟨hk ▸ h.1, h.2⟩
    · simp only [insertA, if_neg hk, List.map_cons, List.nodup_cons]
      refine ⟨fun hcontra => ?_, ih h.2⟩
      rcases keys_insertA_elim hcontra with h' | h'
      · exact h.1 h'
      · exact hk h'

theorem lookupA_mem {α : Type} {l : List (String × α)} {k : String} {v : α}
    (h : lookupA l k = some v) : (k, v) ∈ l := by
  induction l with
  | nil => simp [lookupA] at h
  | cons hd rest ih =>
    obtain ⟨k', v'⟩ := hd
    by_cases hk : k' = k
    · simp only [lookupA, if_pos hk, Option.some.injEq] at h
      subst hk h
      exact List.mem_cons_self _ _
    · simp only [lookupA, if_neg hk] at h
      exact List.mem_cons_of_mem _ (ih h)

theorem key_unique {α : Type} {l : List (String × α)}
    (h : (l.map Prod.fst).Nodup) {k : String} {a b : α}
    (ha : (k, a) ∈ l) (hb : (k, b) ∈ l) : a = b := by
  induction l with
  | nil => simp at ha
  | cons hd rest ih =>
    obtain ⟨k', v'⟩ := hd
    simp only [List.map_cons, List.nodup_cons] at h
    rcases List.mem_cons.mp ha with ha' | ha' <;>
      rcases List.mem_cons.mp hb with hb' | hb'
    · rw [Prod.mk.injEq] at ha' hb'
      rw [ha'.2, hb'.2]
    · exfalso
      apply h.1
      rw [Prod.mk.injEq] at ha'
      exact ha'.1 ▸ List.mem_map.mpr ⟨(k, b), hb', rfl⟩
    · exfalso
      apply h.1
      rw [Prod.mk.injEq] at hb'
      exact hb'.1 ▸ List.mem_map.mpr ⟨(k, a), ha', rfl⟩
    · exact ih h.2 ha' hb'

theorem collect_controller_isOk (config : Config) (io_oracle : DeviceCalls)
    (controller : NvmeController) (ht : config.ioctl_timeout_ms < 2 ^ 32) :
    isOkB (collect_controller config io_oracle controller) =
      (isOkB io_oracle.open_result && isOkB io_oracle.smart_log) := by
  cases hopen : io_oracle.open_result with
  | error e =>
    simp [collect_controller, hopen, except_error_bind, isOkB]
  | ok u =>
    cases hsmart : io_oracle.smart_log with
    | error e =>
      simp [collect_controller, hopen, hsmart, timeoutU32,
        if_pos (show config.ioctl_timeout_ms < 4294967296 by omega),
        ok_bind, except_error_bind, isOkB]
    | ok sm =>
      simp [collect_controller, hopen, hsmart, timeoutU32,
        if_pos (show config.ioctl_timeout_ms < 4294967296 by omega),
        ok_bind, isOkB]

theorem collect_controller_device (config : Config) (io_oracle : DeviceCalls)
    (controller : NvmeController) (snap : DeviceSnapshot)
    (h : collect_controller config io_oracle controller = .ok snap) :
    snap.device = controller.name := by
  cases hopen : io_oracle.open_result with
  | error e =>
    simp [collect_controller, hopen, except_error_bind] at h
  | ok u =>
    by_cases htv : config.ioctl_timeout_ms < 2 ^ 32
    · cases hsmart : io_oracle.smart_log with
      | error e =>
        simp [collect_controller, hopen, hsmart, timeoutU32,
          if_pos (show config.ioctl_timeout_ms < 4294967296 by omega),
          ok_bind, except_error_bind] at h
      | ok sm =>
        simp only [collect_controller, hopen, hsmart, timeoutU32,
          if_pos htv, ok_bind] at h
        rw [show (pure : DeviceSnapshot → Except NvmeError DeviceSnapshot) =
          Except.ok from rfl] at h
        rw [← Except.ok.inj h]
    · simp [collect_controller, hopen, timeoutU32,
        if_neg (show ¬config.ioctl_timeout_ms < 4294967296 by omega),
        ok_bind, except_error_bind] at h

theorem chain_eq_resolvedLabel (idv attr : Option String) :
    ((idv.orElse fun _ => attr).filter fun v => v ≠ "").getD "unknown" =
      resolvedLabel idv attr := by
  cases idv <;> cases attr <;>
    simp only [Option.orElse, Option.filter, resolvedLabel] <;>
    (try split_ifs) <;> simp_all

theorem scrape_collected_success (config : Config)
    (io_for : NvmeController → DeviceCalls)
    (previous : List (String × CachedDevice)) :
    ∀ (l : List NvmeController) (acc : List (String × DeviceSnapshot) × Bool),
      (l.foldl (scrapeStep config io_for previous) acc).2 =
        (acc.2 && l.all fun c =>
          isOkB (collect_controller config (io_for c) c)) := by
  intro l
  induction l with
  | nil => intro acc; simp
  | cons c l ih =>
    intro acc
    rw [List.foldl_cons, ih, List.all_cons]
    have hstep : (scrapeStep config io_for previous acc c).2 =
        (acc.2 && isOkB (collect_controller config (io_for c) c)) := by
      unfold scrapeStep
      cases collect_controller config (io_for c) c <;> simp [isOkB]
    rw [hstep, Bool.and_assoc]

theorem mem_foldl_insertA_elim {α β : Type} (g : β → String) (f : β → α) :
    ∀ (pairs : List β) (init : List (String × α)) (kv : String × α),
      kv ∈ pairs.foldl (fun acc b => insertA acc (g b) (f b)) init →
      kv ∈ init ∨ ∃ b ∈ pairs, kv = (g b, f b) := by
  intro pairs
  induction pairs with
  | nil => intro init kv h; exact Or.inl h
  | cons b bs ih =>
    intro init kv h
    rw [List.foldl_cons] at h
    rcases ih _ kv h with h' | h'
    · rcases mem_insertA_elim h' with h'' | h''
      · exact Or.inr ⟨b, by simp, h''⟩
      · exact Or.inl h''
    · obtain ⟨b', hb', rfl⟩ := h'
      exact Or.inr ⟨b', by simp [hb'], rfl⟩

theorem mem_foldl_insertA_of_ne {α β : Type} (g : β → String) (f : β → α) :
    ∀ (pairs : List β) (init : List (String × α)) (kv : String × α),
      kv ∈ init → (∀ b ∈ pairs, g b ≠ kv.1) →
      kv ∈ pairs.foldl (fun acc b => insertA acc (g b) (f b)) init := by
  intro pairs
  induction pairs with
  | nil => intro init kv h _; exact h
  | cons b bs ih =>
    intro init kv h hne
    rw [List.foldl_cons]
    exact ih _ kv
      (mem_insertA_of_ne h (Ne.symm (hne b (by simp))))
      (fun b' hb' => hne b' (by simp [hb']))

theorem nodup_keys_foldl_insertA {α β : Type} (g : β → String) (f : β → α) :
    ∀ (pairs : List β) (init : List (String × α)),
      (init.map Prod.fst).Nodup →
      ((pairs.foldl (fun acc b => insertA acc (g b) (f b)) init).map
        Prod.fst).Nodup := by
  intro pairs
  induction pairs with
  | nil => intro init h; exact h
  | cons b bs ih =>
    intro init h
    rw [List.foldl_cons]
    exact ih _ (nodup_keys_insertA h)

theorem scrape_collected_elim (config : Config)
    (io_for : NvmeController → DeviceCalls)
    (previous : List (String × CachedDevice)) :
    ∀ (l : List NvmeController) (acc : List (String × DeviceSnapshot) × Bool)
      (kv : String × DeviceSnapshot),
      kv ∈ (l.foldl (scrapeStep config io_for previous) acc).1 →
      kv ∈ acc.1 ∨ ∃ c ∈ l, kv.1 = c.name := by
  intro l
  induction l with
  | nil => intro acc kv h; exact Or.inl h
  | cons c l ih =>
    intro acc kv h
    rw [List.foldl_cons] at h
    rcases ih _ kv h with h' | h'
    · cases hcol : collect_controller config (io_for c) c with
      | ok snapshot =>
        simp only [scrapeStep, hcol] at h'
        rcases mem_insertA_elim h' with h'' | h''
        · exact Or.inr ⟨c, by simp, by rw [h'']⟩
        · exact Or.inl h''
      | error e =>
        simp only [scrapeStep, hcol] at h'
        rcases mem_insertA_elim h' with h'' | h''
        · exact Or.inr ⟨c, by simp, by rw [h'']⟩
        · exact Or.inl h''
    · obtain ⟨c', hc', hkv⟩ := h'
      exact Or.inr ⟨c', by simp [hc'], hkv⟩

theorem scrape_collected_device (config : Config)
    (io_for : NvmeController → DeviceCalls)
    (previous : List (String × CachedDevice))
    (hprev : ∀ kv ∈ previous,
      (kv : String × CachedDevice).2.snapshot.device = kv.1) :
    ∀ (l : List NvmeController) (acc : List (String × DeviceSnapshot) × Bool),
      (∀ kv ∈ acc.1, (kv : String × DeviceSnapshot).2.device = kv.1) →
      ∀ kv ∈ (l.foldl (scrapeStep config io_for previous) acc).1,
        (kv : String × DeviceSnapshot).2.device = kv.1 := by
  intro l
  induction l with
  | nil => intro acc hacc kv h; exact hacc kv h
  | cons c l ih =>
    intro acc hacc kv h
    rw [List.foldl_cons] at h
    refine ih _ ?_ kv h
    intro kv' hkv'
    cases hcol : collect_controller config (io_for c) c with
    | ok snapshot =>
      simp only [scrapeStep, hcol] at hkv'
      rcases mem_insertA_elim hkv' with h'' | h''
      · rw [h'']
        exact collect_controller_device config (io_for c) c snapshot hcol
      · exact hacc kv' h''
    | error e =>
      simp only [scrapeStep, hcol] at hkv'
      rcases mem_insertA_elim hkv' with h'' | h''
      · rw [h'']
        cases hlook : lookupA previous c.name with
        | some cached =>
          simp only [hlook]
          exact hprev (c.name, cached) (lookupA_mem hlook)
        | none => simp only [hlook, minimal_snapshot]
      · exact hacc kv' h''

theorem map_fst_map_preserve {α : Type} (f : (String × α) → (String × α))
    (hf : ∀ kv, (f kv).1 = kv.1) (l : List (String × α)) :
    (l.map f).map Prod.fst = l.map Prod.fst := by
  induction l with
  | nil => rfl
  | cons kv rest ih => simp [hf, ih]

theorem merge_wf (config : Config) (now : Nat) (discovered : List String)
    (collected : List (String × DeviceSnapshot))
    (devices : List (String × CachedDevice))
    (hdev : DevicesWf devices)
    (hcol : ∀ kv ∈ collected,
      (kv : String × DeviceSnapshot).2.device = kv.1) :
    DevicesWf (merge_device_state config now discovered collected devices).2 := by
  obtain ⟨hnd, hval⟩ := hdev
  have h1nd := nodup_keys_foldl_insertA Prod.fst
    (fun nv : String × DeviceSnapshot => ⟨nv.2, now⟩) collected devices hnd
  have h1val : ∀ kv ∈ collected.foldl
      (fun acc nv => insertA acc nv.1 ⟨nv.2, now⟩) devices,
      (kv : String × CachedDevice).2.snapshot.device = kv.1 := by
    intro kv hkv
    rcases mem_foldl_insertA_elim Prod.fst
      (fun nv : String × DeviceSnapshot => ⟨nv.2, now⟩) collected devices kv
      hkv with h | h
    · exact hval kv h
    · obtain ⟨b, hb, rfl⟩ := h
      exact hcol b hb
  simp only [merge_device_state]
  constructor
  · have hkeys2 := map_fst_map_preserve
      (fun kv : String × CachedDevice =>
        if discovered.contains kv.1 then kv
        else (kv.1, { kv.2 with snapshot :=
          { kv.2.snapshot with accessible := false } }))
      (fun kv => by dsimp only; split <;> rfl)
      (collected.foldl (fun acc nv => insertA acc nv.1 ⟨nv.2, now⟩) devices)
    refine List.Nodup.sublist (List.Sublist.map Prod.fst
      (List.filter_sublist _)) ?_
    rw [hkeys2]
    exact h1nd
  · intro kv hkv
    have hkv2 := List.mem_of_mem_filter hkv
    obtain ⟨kv', hkv', rfl⟩ := List.mem_map.mp hkv2
    split
    · exact h1val kv' hkv'
    · exact h1val kv' hkv'

theorem reachable_wf (state : CollectorState) (h : Reachable state) :
    DevicesWf state.devices := by
  induction h with
  | init => exact ⟨List.nodup_nil, by simp⟩
  | step config io_for now controllers st hst ih =>
    exact merge_wf config now (controllers.map fun c => c.name)
      (controllers.foldl (scrapeStep config io_for st.devices)
        ([], true)).1
      st.devices ⟨ih.1, ih.2⟩
      (scrape_collected_device config io_for st.devices ih.2 controllers
        ([], true) (by simp))

/-! ## Claims -/

/-- C1: the report's `success` is `true` exactly when, for every
discovered controller, the device open and the SMART read succeed;
Identify Controller, per-namespace Identify, error-log and self-test
failures never clear it, and an empty discovery yields `success = true`
vacuously.  (`Config::parse` always sets the ioctl timeout to 5000 ms, so
the `u32` bound hypothesis holds for every real configuration.) -/
theorem scrape_success_iff (config : Config)
    (io_for : NvmeController → DeviceCalls) (now : Nat)
    (controllers : List NvmeController) (state : CollectorState)
    (ht : config.ioctl_timeout_ms < 2 ^ 32) :
    (scrape config io_for now controllers state).1.success = true ↔
      ∀ c ∈ controllers, isOkB (io_for c).open_result = true ∧
        isOkB (io_for c).smart_log = true := by
  show (controllers.foldl (scrapeStep config io_for state.devices)
    ([], true)).2 = true ↔ _
  rw [scrape_collected_success config io_for state.devices controllers
    ([], true)]
  simp only [Bool.true_and, List.all_eq_true]
  constructor
  · intro h c hc
    have hcoll := h c hc
    rw [collect_controller_isOk _ _ _ ht, Bool.and_eq_true] at hcoll
    exact hcoll
  · intro h c hc
    rw [collect_controller_isOk _ _ _ ht, Bool.and_eq_true]
    exact h c hc

/-- C1 witness: one controller whose calls all succeed gives
`success = true` at the default 5000 ms timeout. -/
theorem scrape_success_iff_witness :
    (scrape cfgPlain (fun _ => okCalls) 0
      [{ name := "nvme0", model := none, serial := none, firmware := none,
         namespaces := [] }] ⟨[]⟩).1.success = true :=
  (scrape_success_iff cfgPlain (fun _ => okCalls) 0 _ ⟨[]⟩
    (by decide)).mpr (by decide)

/-- C2 (amended): the resolved model/serial/firmware equal the Identify
field when Identify Controller succeeded and the field is non-empty;
`"unknown"` when Identify succeeded but the field is empty (the discovery
attribute is NOT consulted in that case); the discovery attribute when
Identify Controller failed and the attribute is present and non-empty;
and `"unknown"` otherwise. -/
theorem collect_controller_label_resolution (config : Config)
    (io_oracle : DeviceCalls) (controller : NvmeController)
    (snap : DeviceSnapshot)
    (h : collect_controller config io_oracle controller = .ok snap) :
    snap.model = resolvedLabel
        ((identifyOpt io_oracle).map fun v => v.model) controller.model ∧
    snap.serial = resolvedLabel
        ((identifyOpt io_oracle).map fun v => v.serial) controller.serial ∧
    snap.firmware = resolvedLabel
        ((identifyOpt io_oracle).map fun v => v.firmware_revision)
        controller.firmware := by
  cases hopen : io_oracle.open_result with
  | error e => simp [collect_controller, hopen, except_error_bind] at h
  | ok u =>
    by_cases htv : config.ioctl_timeout_ms < 2 ^ 32
    · cases hsmart : io_oracle.smart_log with
      | error e =>
        simp [collect_controller, hopen, hsmart, timeoutU32,
          if_pos (show config.ioctl_timeout_ms < 4294967296 by omega),
          ok_bind, except_error_bind] at h
      | ok sm =>
        simp only [collect_controller, hopen, hsmart, timeoutU32,
          if_pos htv, ok_bind] at h
        rw [show (pure : DeviceSnapshot → Except NvmeError DeviceSnapshot) =
          Except.ok from rfl] at h
        rw [← Except.ok.inj h]
        exact ⟨chain_eq_resolvedLabel _ _, chain_eq_resolvedLabel _ _,
          chain_eq_resolvedLabel _ _⟩
    · simp [collect_controller, hopen, timeoutU32,
        if_neg (show ¬config.ioctl_timeout_ms < 4294967296 by omega),
        ok_bind, except_error_bind] at h

/-- C2 counterexample: Identify Controller succeeds with an empty model
while the discovery attribute is `"DISCMODEL"`; the code resolves the
model to `"unknown"`, not to the first non-empty of the chain, which
would be `"DISCMODEL"`. -/
theorem collect_controller_empty_identify_refutes :
    (collect_controller cfgPlain emptyIdCalls ctlDisc).map
      (fun snap => snap.model) = .ok "unknown" ∧
    firstNonEmptyLabel (some "") (some "DISCMODEL") = "DISCMODEL" ∧
    ("unknown" : String) ≠ "DISCMODEL" :=
  ⟨rfl, rfl, by decide⟩

/-- C2 witness: the resolution equality applied to the concrete
empty-Identify scrape. -/
theorem collect_controller_label_resolution_witness :
    ∃ snap, collect_controller cfgPlain emptyIdCalls ctlDisc = .ok snap ∧
      snap.model = resolvedLabel
        ((identifyOpt emptyIdCalls).map fun v => v.model) ctlDisc.model := by
  cases hok : collect_controller cfgPlain emptyIdCalls ctlDisc with
  | ok snap =>
    exact ⟨snap, rfl,
      (collect_controller_label_resolution cfgPlain emptyIdCalls ctlDisc
        snap hok).1⟩
  | error e =>
    have hvalid : isOkB (collect_controller cfgPlain emptyIdCalls ctlDisc) =
        true := by decide
    rw [hok] at hvalid
    simp [isOkB] at hvalid

/-- C8: `get_log_page` rejects a zero or non-multiple-of-4 length with
`InvalidData`; every accepted length yields a command with opcode `0x02`,
the given NSID, `data_len` equal to the length, the given timeout, and
`CDW10 = (NUMD << 16) | LID` (u32 arithmetic) with
`NUMD = length/4 - 1` saturating at 0; `get_controller_log_page` is
`get_log_page` at NSID `0xFFFFFFFF`. -/
theorem get_log_page_spec (nsid lid data_len timeout_ms : Nat) :
    ((data_len = 0 ∨ data_len % 4 ≠ 0) →
      ∃ msg, get_log_page nsid lid data_len timeout_ms =
        .error (.invalidData msg)) ∧
    (∀ cmd, get_log_page nsid lid data_len timeout_ms = .ok cmd →
      cmd.opcode = 0x02 ∧ cmd.nsid = nsid ∧ cmd.data_len = data_len ∧
      cmd.cdw10 = ((data_len / 4 - 1) <<< 16) % 2 ^ 32 ||| lid ∧
      cmd.timeout_ms = timeout_ms) ∧
    get_controller_log_page lid data_len timeout_ms =
      get_log_page 0xFFFFFFFF lid data_len timeout_ms := by
  refine ⟨fun h => ?_, fun cmd hcmd => ?_, rfl⟩
  · unfold get_log_page
    rw [if_pos h]
    exact ⟨_, rfl⟩
  · simp only [get_log_page] at hcmd
    split at hcmd
    · exact absurd hcmd (by simp)
    · split at hcmd
      · split at hcmd
        · cases hcmd
          exact ⟨rfl, rfl, rfl, rfl, rfl⟩
        · exact absurd hcmd (by simp)
      · exact absurd hcmd (by simp)

/-- C8 witness: length 6 is rejected; length 512 produces
`NUMD = 127` in the upper half of CDW10. -/
theorem get_log_page_spec_witness :
    (∃ msg, get_log_page 4294967295 2 6 1000 = .error (.invalidData msg)) ∧
    (∃ cmd, get_log_page 4294967295 2 512 1000 = .ok cmd ∧
      cmd.cdw10 = ((512 / 4 - 1) <<< 16) % 2 ^ 32 ||| 2) := by
  refine ⟨(get_log_page_spec 4294967295 2 6 1000).1 (Or.inr (by decide)), ?_⟩
  cases hok : get_log_page 4294967295 2 512 1000 with
  | ok cmd =>
    exact ⟨cmd, rfl,
      ((get_log_page_spec 4294967295 2 512 1000).2.1 cmd hok).2.2.2.1⟩
  | error e =>
    have hvalid : isOkB (get_log_page 4294967295 2 512 1000) = true := by decide
    rw [hok] at hvalid
    simp [isOkB] at hvalid

/-- C9 (amended): `parse_namespace_name c s = some n` exactly when `s` is
`c`, then `'n'`, then a non-empty maximal ASCII digit run whose value is
`n` and fits in `u32` (values `≥ 2^32` yield `None`), followed by
arbitrary ignored characters. -/
theorem parse_namespace_name_characterization (c s : List Char) (n : Nat) :
    parse_namespace_name c s = some n ↔
      ∃ ds rest, s = c ++ 'n' :: (ds ++ rest) ∧ ds ≠ [] ∧
        (∀ d ∈ ds, d.isDigit = true) ∧
        (∀ r rs, rest = r :: rs → r.isDigit = false) ∧
        digitsVal ds = n ∧ n < 2 ^ 32 := by
  constructor
  · intro h
    simp only [parse_namespace_name] at h
    by_cases hpre : (c ++ ['n']).isPrefixOf s = true
    · rw [if_pos hpre] at h
      obtain ⟨t, ht⟩ := List.isPrefixOf_iff_prefix.mp hpre
      subst ht
      rw [List.drop_left] at h
      split at h
      · exact absurd h (by simp)
      · split at h
        · exact absurd h (by simp)
        · next hde =>
          simp only [parseU32Digits] at h
          rw [if_neg (by simpa using hde)] at h
          split at h
          · next hlt =>
            have hn : digitsVal (t.takeWhile fun ch => ch.isDigit) = n := by
              exact Option.some.inj h
            refine ⟨t.takeWhile fun ch => ch.isDigit,
              t.dropWhile fun ch => ch.isDigit, ?_, ?_, ?_, ?_, hn, hn ▸ hlt⟩
            · rw [List.takeWhile_append_dropWhile]
              simp
            · simpa [List.isEmpty_iff] using hde
            · exact fun d hd => List.mem_takeWhile_imp hd
            · exact dropWhile_head_false _ t
          · exact absurd h (by simp)
    · rw [if_neg hpre] at h
      exact absurd h (by simp)
  · rintro ⟨ds, rest, rfl, hne, hdig, hrest, hval, hlt⟩
    have hs : c ++ 'n' :: (ds ++ rest) = (c ++ ['n']) ++ (ds ++ rest) := by simp
    simp only [parse_namespace_name]
    rw [hs, if_pos (List.isPrefixOf_iff_prefix.mpr (List.prefix_append _ _)),
      List.drop_left]
    have htw : (ds ++ rest).takeWhile (fun ch => ch.isDigit) = ds := by
      rw [takeWhile_append_all _ _ _ hdig,
        takeWhile_nil_of_head_false _ _ hrest, List.append_nil]
    rw [htw]
    rw [if_neg (by simp [List.isEmpty_iff, hne]),
      if_neg (by simp [List.isEmpty_iff, hne])]
    simp only [parseU32Digits]
    rw [if_neg (by simp [List.isEmpty_iff, hne]), hval, if_pos hlt]

/-- C9 witness: the spec's example `("nvme0", "nvme0n1p1")` parses to
namespace 1 with the trailing `p1` ignored. -/
theorem parse_namespace_name_characterization_witness :
    ∃ ds rest, "nvme0n1p1".toList = "nvme0".toList ++ 'n' :: (ds ++ rest) ∧
      ds ≠ [] ∧ (∀ d ∈ ds, d.isDigit = true) ∧
      (∀ r rs, rest = r :: rs → r.isDigit = false) ∧
      digitsVal ds = 1 ∧ 1 < 2 ^ 32 :=
  (parse_namespace_name_characterization "nvme0".toList "nvme0n1p1".toList
    1).mp (by decide)

/-- C9 counterexample: `"nvme0n99999999999"` begins with `"nvme0"`, `'n'`
and a non-empty digit run, yet `parse_namespace_name` returns `None`
(the run's value exceeds `u32::MAX`), refuting the claim's "exactly
when". -/
theorem parse_namespace_name_overflow_refutes :
    "nvme0n99999999999".toList =
      "nvme0".toList ++ 'n' :: "99999999999".toList ∧
    "99999999999".toList ≠ [] ∧
    (∀ d ∈ "99999999999".toList, d.isDigit = true) ∧
    parse_namespace_name "nvme0".toList "nvme0n99999999999".toList = none :=
  ⟨by decide, by decide, by decide, by decide⟩

/-- C10: a namespace entry whose digit run after `c ++ "n"` denotes a
value `≥ 2^32` parses to `None` (no truncation, no error), so discovery
silently skips such a sysfs entry. -/
theorem parse_namespace_name_u32_overflow (c ds rest : List Char)
    (hne : ds ≠ []) (hdig : ∀ d ∈ ds, d.isDigit = true)
    (hbig : 2 ^ 32 ≤ digitsVal ds) :
    parse_namespace_name c (c ++ 'n' :: (ds ++ rest)) = none ∧
    ∀ entries p, p ∈ discover_namespaces c entries →
      p.1 ≠ c ++ 'n' :: (ds ++ rest) := by
  have hnone : parse_namespace_name c (c ++ 'n' :: (ds ++ rest)) = none := by
    have hs : c ++ 'n' :: (ds ++ rest) = (c ++ ['n']) ++ (ds ++ rest) := by simp
    simp only [parse_namespace_name]
    rw [hs, if_pos (List.isPrefixOf_iff_prefix.mpr (List.prefix_append _ _)),
      List.drop_left]
    have htw : (ds ++ rest).takeWhile (fun ch => ch.isDigit) =
        ds ++ rest.takeWhile (fun ch => ch.isDigit) :=
      takeWhile_append_all _ _ _ hdig
    rw [htw]
    rw [if_neg (by simp [List.isEmpty_iff, hne]),
      if_neg (by simp [List.isEmpty_iff, hne])]
    simp only [parseU32Digits]
    rw [if_neg (by simp [List.isEmpty_iff, hne])]
    have hge : 2 ^ 32 ≤ digitsVal (ds ++ rest.takeWhile fun ch => ch.isDigit) := by
      rw [digitsVal_append]
      calc 2 ^ 32 ≤ digitsVal ds := hbig
        _ ≤ digitsVal ds * 10 ^ (rest.takeWhile fun ch => ch.isDigit).length :=
          Nat.le_mul_of_pos_right _ (Nat.pos_pow_of_pos _ (by omega))
        _ ≤ _ := Nat.le_add_right _ _
    rw [if_neg (by omega)]
  refine ⟨hnone, fun entries p hp hcontra => ?_⟩
  obtain ⟨e, _, hf⟩ := List.mem_filterMap.mp hp
  obtain ⟨m, hm, hpair⟩ := Option.map_eq_some'.mp hf
  have : parse_namespace_name c (c ++ 'n' :: (ds ++ rest)) = some m := by
    rw [← hcontra, ← hpair]
    exact hm
  rw [hnone] at this
  exact absurd this (by simp)

/-- C10 witness: an 11-digit run is skipped. -/
theorem parse_namespace_name_u32_overflow_witness :
    parse_namespace_name "nvme0".toList
      ("nvme0".toList ++ 'n' :: ("99999999999".toList ++ [])) = none :=
  (parse_namespace_name_u32_overflow "nvme0".toList "99999999999".toList []
    (by decide) (by decide) (by decide)).1

/-- C3 (amended): `ErrorLogSummary::parse` returns `InvalidData` exactly
for buffers whose length is not a multiple of 64 (the empty buffer is
accepted); on every multiple-of-64 length it returns the number of
64-byte entries whose leading little-endian u64 is non-zero and the
maximum such value (0 when there are no entries or all are zero). -/
theorem error_log_summary_parse_spec (bytes : List Nat) :
    (bytes.length % 64 ≠ 0 →
      ∃ msg, ErrorLogSummary.parse bytes = .error (.invalidData msg)) ∧
    (bytes.length % 64 = 0 →
      ErrorLogSummary.parse bytes =
        .ok { non_zero_entries :=
                (errorLogEntryCounts bytes).countP fun c => decide (0 < c),
              max_error_count :=
                (errorLogEntryCounts bytes).foldl (fun a c => max a c) 0 }) := by
  constructor
  · intro h
    unfold ErrorLogSummary.parse
    rw [if_pos (by simpa [ERROR_LOG_ENTRY_BYTES] using h)]
    exact ⟨_, rfl⟩
  · intro h
    obtain ⟨m, hm⟩ : ∃ m, bytes.length = 64 * m :=
      ⟨bytes.length / 64, by omega⟩
    unfold ErrorLogSummary.parse
    rw [if_neg (by simpa [ERROR_LOG_ENTRY_BYTES] using h)]
    have hloop := errorLogLoop_spec bytes m hm m 0 0 0 (by omega)
    rw [show (64 : Nat) * 0 = 0 from rfl] at hloop
    rw [hloop]
    simp

/-- C3 counterexample: the empty buffer (length 0, not a positive multiple
of 64) is parsed successfully as zero entries, not rejected with
`InvalidData`. -/
theorem error_log_summary_parse_empty_refutes :
    ErrorLogSummary.parse [] = .ok { non_zero_entries := 0, max_error_count := 0 } ∧
    ∀ msg, ErrorLogSummary.parse [] ≠ .error (.invalidData msg) := by
  have h : ErrorLogSummary.parse [] =
      .ok { non_zero_entries := 0, max_error_count := 0 } := by
    simp [ErrorLogSummary.parse, errorLogLoop]
  exact ⟨h, fun msg hc => Except.noConfusion (h ▸ hc)⟩

/-- C3 witness: a 65-byte buffer is rejected; a 128-byte buffer with one
non-zero entry is tallied. -/
theorem error_log_summary_parse_spec_witness :
    (∃ msg, ErrorLogSummary.parse (List.replicate 65 0) =
      .error (.invalidData msg)) ∧
    ErrorLogSummary.parse (List.replicate 128 0) =
      .ok { non_zero_entries :=
              (errorLogEntryCounts (List.replicate 128 0)).countP
                fun c => decide (0 < c),
            max_error_count :=
              (errorLogEntryCounts (List.replicate 128 0)).foldl
                (fun a c => max a c) 0 } :=
  ⟨(error_log_summary_parse_spec (List.replicate 65 0)).1 (by simp),
   (error_log_summary_parse_spec (List.replicate 128 0)).2 (by simp)⟩

/-- C5: `SmartLog::parse` rejects any length other than 512 with
`UnexpectedSize{expected: 512, actual}`; every 512-byte buffer parses to
exactly the little-endian values at the documented offsets
(`smartLogSpec`); and a buffer constructed by writing well-formed field
values at those offsets decodes back to them bitwise. -/
theorem smart_log_parse_spec (bytes : List Nat) :
    (bytes.length ≠ 512 →
      SmartLog.parse bytes = .error (.unexpectedSize 512 bytes.length)) ∧
    (bytes.length = 512 → SmartLog.parse bytes = .ok (smartLogSpec bytes)) ∧
    (∀ s : SmartLog, SmartLogWf s →
      SmartLog.parse (mkSmartBuffer s) = .ok s) := by
  refine ⟨fun h => ?_, fun h => smart_parse_ok bytes h, fun s hwf => ?_⟩
  · unfold SmartLog.parse
    rw [if_pos (by simpa [SMART_LOG_BYTES] using h)]
    rfl
  · have hcopy := hwf
    obtain ⟨-, -, -, -, -, -, -, -, -, -, -, -, -, -, -, -, -, h8len, -, -,
      -, -, -⟩ := hcopy
    exact (smart_parse_ok _ (mkSmartBuffer_length s h8len)).trans
      (congrArg Except.ok (smartLogSpec_mkSmartBuffer s hwf))

/-- C5 witness: a 100-byte buffer is rejected with the actual size; the
concrete roundtrip decodes bitwise. -/
theorem smart_log_parse_spec_witness :
    SmartLog.parse (List.replicate 100 0) = .error (.unexpectedSize 512 100) ∧
    SmartLog.parse (mkSmartBuffer smartWitnessValue) = .ok smartWitnessValue :=
  ⟨(smart_log_parse_spec (List.replicate 100 0)).1 (by simp),
   (smart_log_parse_spec (mkSmartBuffer smartWitnessValue)).2.2
     smartWitnessValue (by decide)⟩

/-- C4 (amended): `trim_nvme_ascii` maps `"Samsung SSD  \0\0\0"` to
`"Samsung SSD"`, and re-applying it to the bytes of its result is the
identity whenever that result does not end in a NUL character (trimming
can expose a trailing NUL, which a second application would remove, so the
function is not idempotent unconditionally). -/
theorem trim_nvme_ascii_spec :
    (∀ bytes, (trim_nvme_ascii bytes).getLast? ≠ some 0 →
      trim_nvme_ascii (utf8Encode (trim_nvme_ascii bytes)) =
        trim_nvme_ascii bytes) ∧
    trim_nvme_ascii (strScalars "Samsung SSD  " ++ [0, 0, 0]) =
      strScalars "Samsung SSD" := by
  constructor
  · intro bytes hnul
    have hvalid : ∀ c ∈ trim_nvme_ascii bytes, ValidScalar c :=
      fun c hc => utf8LossyDecode_valid bytes c (mem_trim_nvme_ascii hc)
    show trimWhitespace (dropTrailingNuls (utf8LossyDecode
      (utf8Encode (trim_nvme_ascii bytes)))) = trim_nvme_ascii bytes
    rw [utf8LossyDecode_utf8Encode _ hvalid, dropTrailingNuls_id _ hnul]
    exact trimWhitespace_idem (dropTrailingNuls (utf8LossyDecode bytes))
  · decide

/-- C4 counterexample: on the bytes `"a\0 "`, `trim_nvme_ascii` yields
`"a\0"` (the trailing space is trimmed, exposing a NUL), and a second
application yields `"a"`, so the function is not idempotent. -/
theorem trim_nvme_ascii_not_idempotent :
    trim_nvme_ascii [0x61, 0x00, 0x20] = [0x61, 0x00] ∧
    trim_nvme_ascii (utf8Encode (trim_nvme_ascii [0x61, 0x00, 0x20])) =
      [0x61] ∧
    trim_nvme_ascii (utf8Encode (trim_nvme_ascii [0x61, 0x00, 0x20])) ≠
      trim_nvme_ascii [0x61, 0x00, 0x20] :=
  ⟨by decide, by decide, by decide⟩

/-- C4 witness: the Samsung example satisfies the no-trailing-NUL side
condition, and re-applying `trim_nvme_ascii` to it is the identity. -/
theorem trim_nvme_ascii_spec_witness :
    (trim_nvme_ascii (strScalars "Samsung SSD  " ++ [0, 0, 0])).getLast? ≠
      some 0 ∧
    trim_nvme_ascii (utf8Encode
      (trim_nvme_ascii (strScalars "Samsung SSD  " ++ [0, 0, 0]))) =
      trim_nvme_ascii (strScalars "Samsung SSD  " ++ [0, 0, 0]) :=
  ⟨by decide, trim_nvme_ascii_spec.1 _ (by decide)⟩

theorem merge_grace (config : Config) (now : Nat) (discovered : List String)
    (collected : List (String × DeviceSnapshot))
    (devices : List (String × CachedDevice))
    (name : String) (cached : CachedDevice)
    (hdev : DevicesWf devices)
    (hmem : (name, cached) ∈ devices)
    (hnd : name ∉ discovered)
    (hcolk : ∀ kv ∈ collected,
      (kv : String × DeviceSnapshot).1 ∈ discovered) :
    (now - cached.last_seen ≤ config.stale_device_grace →
      { cached.snapshot with accessible := false } ∈
        (merge_device_state config now discovered collected devices).1) ∧
    (config.stale_device_grace < now - cached.last_seen →
      ∀ kv ∈ (merge_device_state config now discovered collected devices).2,
        (kv : String × CachedDevice).1 ≠ name) := by
  have hcontains : discovered.contains name = false := by
    simpa using hnd
  have h1 : (name, cached) ∈ collected.foldl
      (fun acc nv => insertA acc nv.1 ⟨nv.2, now⟩) devices :=
    mem_foldl_insertA_of_ne Prod.fst
      (fun nv : String × DeviceSnapshot => ⟨nv.2, now⟩)
      collected devices (name, cached) hmem
      (fun b hb heq => hnd (by
        have hbmem := hcolk b hb
        rw [heq] at hbmem
        simpa using hbmem))
  simp only [merge_device_state]
  constructor
  · intro hle
    refine (List.mem_insertionSort devLE).mpr ?_
    refine List.mem_map.mpr ⟨(name, { cached with snapshot :=
      { cached.snapshot with accessible := false } }), ?_, rfl⟩
    refine List.mem_filter.mpr ⟨?_, ?_⟩
    · refine List.mem_map.mpr ⟨(name, cached), h1, ?_⟩
      simp [hnd]
    · simp [hnd, hle]
  · intro hgt kv hkv heq
    have hkv2 := List.mem_of_mem_filter hkv
    have hcond := List.of_mem_filter hkv
    obtain ⟨kv', hkv', rfl⟩ := List.mem_map.mp hkv2
    obtain ⟨k, v⟩ := kv'
    dsimp only at hcond heq
    by_cases hck : discovered.contains k = true
    · rw [if_pos hck] at heq
      dsimp only at heq
      rw [heq, hcontains] at hck
      exact Bool.false_ne_true hck
    · rw [if_neg hck] at heq hcond
      dsimp only at heq hcond
      subst heq
      rcases mem_foldl_insertA_elim Prod.fst
        (fun nv : String × DeviceSnapshot => ⟨nv.2, now⟩)
        collected devices (k, v) hkv' with h' | h'
      · have hvc : v = cached := key_unique hdev.1 h' hmem
        subst hvc
        rw [Bool.or_eq_true] at hcond
        rcases hcond with hcond | hcond
        · exact hck hcond
        · have := of_decide_eq_true hcond
          omega
      · obtain ⟨b, hb, hpair⟩ := h'
        rw [Prod.mk.injEq] at hpair
        exact hnd (by rw [hpair.1]; exact hcolk b hb)

/-- C7: in every merged scrape report (from any reachable collector
state), the snapshots are strictly ascending in device name; in
particular no two snapshots share a device name. -/
theorem scrape_report_sorted_unique (config : Config)
    (io_for : NvmeController → DeviceCalls) (now : Nat)
    (controllers : List NvmeController) (state : CollectorState)
    (h : Reachable state) :
    ((scrape config io_for now controllers state).1.devices).Pairwise
      fun a b => a.device < b.device := by
  have hwf : DevicesWf
      ((scrape config io_for now controllers state).2.devices) :=
    reachable_wf _ (Reachable.step config io_for now controllers state h)
  have hrep : (scrape config io_for now controllers state).1.devices =
      (((scrape config io_for now controllers state).2.devices).map
        fun kv => kv.2.snapshot).insertionSort devLE := rfl
  rw [hrep]
  have hsorted := List.sorted_insertionSort devLE
    (((scrape config io_for now controllers state).2.devices).map
      fun kv => kv.2.snapshot)
  have hperm := List.perm_insertionSort devLE
    (((scrape config io_for now controllers state).2.devices).map
      fun kv => kv.2.snapshot)
  have hne : (((scrape config io_for now controllers state).2.devices).map
      fun kv => kv.2.snapshot).Pairwise
      fun a b => a.device ≠ b.device := by
    have hpair : ((scrape config io_for now controllers
        state).2.devices).Pairwise fun x y => x.1 ≠ y.1 :=
      List.pairwise_map.mp hwf.1
    refine List.pairwise_map.mpr ?_
    refine hpair.imp_of_mem ?_
    intro x y hx hy hxy
    rw [hwf.2 x hx, hwf.2 y hy]
    exact hxy
  have hne' := (hperm.pairwise_iff
    (fun {a b} hab => Ne.symm hab)).mpr hne
  exact (hsorted.and hne').imp fun hab => lt_of_le_of_ne hab.1 hab.2

/-- C7 witness: a two-controller scrape from the initial state. -/
theorem scrape_report_sorted_unique_witness :
    ((scrape cfgPlain (fun _ => okCalls) 0
      [{ name := "nvme1", model := none, serial := none, firmware := none,
         namespaces := [] },
       { name := "nvme0", model := none, serial := none, firmware := none,
         namespaces := [] }] ⟨[]⟩).1.devices).Pairwise
      fun a b => a.device < b.device :=
  scrape_report_sorted_unique cfgPlain (fun _ => okCalls) 0 _ ⟨[]⟩
    Reachable.init

/-- C6: for a cached device absent from the current discovery: within the
grace window (elapsed time at most `stale_device_grace`) its last snapshot
is still reported with `accessible = false`; beyond the window it is
evicted from the cache and no snapshot with its name appears in the
report. -/
theorem stale_device_grace_window (config : Config)
    (io_for : NvmeController → DeviceCalls) (now : Nat)
    (controllers : List NvmeController) (state : CollectorState)
    (name : String) (cached : CachedDevice)
    (hreach : Reachable state)
    (hmem : (name, cached) ∈ state.devices)
    (hnd : name ∉ controllers.map fun c => c.name) :
    (now - cached.last_seen ≤ config.stale_device_grace →
      { cached.snapshot with accessible := false } ∈
        (scrape config io_for now controllers state).1.devices) ∧
    (config.stale_device_grace < now - cached.last_seen →
      (∀ snap ∈ (scrape config io_for now controllers state).1.devices,
        snap.device ≠ name) ∧
      ∀ kv ∈ (scrape config io_for now controllers state).2.devices,
        (kv : String × CachedDevice).1 ≠ name) := by
  have hwfprev := reachable_wf state hreach
  have hcolk : ∀ kv ∈ (controllers.foldl
      (scrapeStep config io_for state.devices) ([], true)).1,
      (kv : String × DeviceSnapshot).1 ∈ controllers.map fun c => c.name := by
    intro kv hkv
    rcases scrape_collected_elim config io_for state.devices controllers
      ([], true) kv hkv with h | h
    · simp at h
    · obtain ⟨c, hc, hn⟩ := h
      rw [hn]
      exact List.mem_map.mpr ⟨c, hc, rfl⟩
  have hg := merge_grace config now (controllers.map fun c => c.name)
    (controllers.foldl (scrapeStep config io_for state.devices)
      ([], true)).1
    state.devices name cached hwfprev hmem hnd hcolk
  refine ⟨fun hle => hg.1 hle, fun hgt => ⟨?_, fun kv hkv => hg.2 hgt kv hkv⟩⟩
  intro snap hsnap
  have hwfnext : DevicesWf
      ((scrape config io_for now controllers state).2.devices) :=
    reachable_wf _ (Reachable.step config io_for now controllers state hreach)
  have hrep : (scrape config io_for now controllers state).1.devices =
      (((scrape config io_for now controllers state).2.devices).map
        fun kv => kv.2.snapshot).insertionSort devLE := rfl
  rw [hrep] at hsnap
  have hsnap2 := (List.mem_insertionSort devLE).mp hsnap
  obtain ⟨kv, hkv, rfl⟩ := List.mem_map.mp hsnap2
  rw [hwfnext.2 kv hkv]
  exact hg.2 hgt kv hkv

/-- C6 witness: `nvme0` is collected at time 0; a scrape at time 10 with
empty discovery still reports its snapshot with `accessible = false`
(10 s elapsed, 300 s grace). -/
theorem stale_device_grace_window_witness :
    ("nvme0", ({ snapshot := snapNvme0, last_seen := 0 } : CachedDevice)) ∈
      (scrape cfgPlain (fun _ => okCalls) 0 [ctl0] ⟨[]⟩).2.devices ∧
    { snapNvme0 with accessible := false } ∈
      (scrape cfgPlain (fun _ => okCalls) 10 []
        (scrape cfgPlain (fun _ => okCalls) 0 [ctl0] ⟨[]⟩).2).1.devices := by
  refine ⟨by decide, ?_⟩
  exact (stale_device_grace_window cfgPlain (fun _ => okCalls) 10 []
    ((scrape cfgPlain (fun _ => okCalls) 0 [ctl0] ⟨[]⟩).2) "nvme0"
    { snapshot := snapNvme0, last_seen := 0 }
    (Reachable.step cfgPlain (fun _ => okCalls) 0 [ctl0] ⟨[]⟩
      Reachable.init)
    (by decide) (by decide)).1 (by decide)

end NvmeExporter
